import Mathlib

/-!
# Verification of the iMaterialist streaming bulk-load pipeline

A shallow embedding of `load_imat_to_postgres.py`: the JSON value model,
the Python-level partial operations the loader uses (`dict` subscripting,
`int(...)` coercion, `json.dumps`, `csv.writer`), the database state
(the five `raw.*` relations plus the printed log), and the loader
functions `load_imat_split_info_and_license`, `load_imat_split_images`,
`load_imat_split_annotations`, `load_imat_split`, and `load_label_map`.

Machine-level effects are made explicit: each loader takes the store
state and returns either a final state or a raised Python exception
paired with the state at the moment the exception propagates (the
connection is in autocommit mode, so earlier statements persist).
-/

namespace ImatLoader

/-- A JSON value, as produced by `json.load` / streamed by `ijson.items`.
Numbers are modelled as integers (the documents' ids are integral; float
and `Decimal` subtleties are irrelevant to every claim checked here).
Objects are association lists with the keys of the Python `dict`,
assumed unique. -/
inductive JVal where
  | null
  | bool (b : Bool)
  | num (n : Int)
  | str (s : String)
  | arr (items : List JVal)
  | obj (fields : List (String × JVal))

/-- The Python exceptions the loader can raise, with the payloads the
source actually attaches to them. -/
inductive PyErr where
  /-- `FileNotFoundError(path)` from the explicit `exists()` checks. -/
  | fileNotFoundError (path : String)
  /-- `json.load` / `ijson` failing on malformed input. -/
  | jsonParseError (path : String)
  /-- `pd.read_excel` failing on an unreadable spreadsheet. -/
  | excelReadError (path : String)
  /-- `KeyError(key)` from `d[key]` on a dict missing `key`. -/
  | keyError (key : String)
  /-- `ValueError` from `int(s)` on a non-coercible string; carries the
  offending literal, as CPython's message does. -/
  | valueError (literal : String)
  /-- `TypeError` from `int(...)` on a list/dict/None or from
  subscripting a non-dict. -/
  | typeError
  /-- `AttributeError` from `.get(...)` on a non-dict document. -/
  | attributeError
deriving DecidableEq, Repr

/-- Key lookup in a JSON object's field list (Python `dict` access;
keys are unique). -/
def lookupField : List (String × JVal) → String → Option JVal
  | [], _ => none
  | (k, v) :: rest, key => if k = key then some v else lookupField rest key

/-- `d[key]`: subscripting, raising `KeyError` on a missing key and
`TypeError` on a non-dict. -/
def subscr (v : JVal) (key : String) : Except PyErr JVal :=
  match v with
  | .obj fields =>
    match lookupField fields key with
    | some x => .ok x
    | none => .error (.keyError key)
  | _ => .error .typeError

/-- What `data.get(key)` yields on a dict with fields `fs`: JSON `null`
parses to Python `None`, so a key bound to `null` is indistinguishable
from an absent key — both give `None` (`none` here). -/
def getOpt (fs : List (String × JVal)) (key : String) : Option JVal :=
  match lookupField fs key with
  | some .null => none
  | some x => some x
  | none => none

/-- `d.get(key)`: the Python value at `key` (`None` for an absent key
and for a key bound to JSON `null`, see `getOpt`); raises
`AttributeError` when the receiver is not a dict. -/
def pyGet (v : JVal) (key : String) : Except PyErr (Option JVal) :=
  match v with
  | .obj fields => .ok (getOpt fields key)
  | _ => .error .attributeError

/-- The decimal value of a non-empty all-digit character list, `none`
otherwise. -/
def digitsVal? (ds : List Char) : Option Nat :=
  if ds.isEmpty then none
  else if ds.all Char.isDigit then
    some (ds.foldl (fun a c => a * 10 + (c.toNat - '0'.toNat)) 0)
  else none

/-- `int(s)` on a string: surrounding whitespace stripped, an optional
sign, then a non-empty digit run. -/
def parsePyIntStr (s : String) : Option Int :=
  let cs := ((s.data.dropWhile Char.isWhitespace).reverse.dropWhile
    Char.isWhitespace).reverse
  match cs with
  | '-' :: ds => (digitsVal? ds).map (fun n => -(n : Int))
  | '+' :: ds => (digitsVal? ds).map (fun n => (n : Int))
  | ds => (digitsVal? ds).map (fun n => (n : Int))

/-- `int(x)`: identity on numbers, `True`/`False` to `1`/`0`, decimal
parse of strings raising `ValueError` on failure, `TypeError` on
`None`/lists/dicts. -/
def pyIntE : JVal → Except PyErr Int
  | .num n => .ok n
  | .bool b => .ok (if b then 1 else 0)
  | .str s =>
    match parsePyIntStr s with
    | some n => .ok n
    | none => .error (.valueError s)
  | _ => .error .typeError

/-- `str(x)`. Total in Python. Containers are abbreviated here (their
`repr` text is never inspected by any claim; the loader only applies
`str` to url fields, which are strings in the data). -/
def pyStr : JVal → String
  | .str s => s
  | .num n => toString n
  | .bool b => if b then "True" else "False"
  | .null => "None"
  | .arr _ => "<list>"
  | .obj _ => "<dict>"

/-- Lower-case hex digit for a value below 16 (as `json.dumps` emits). -/
def hexDigitChar (n : Nat) : Char :=
  if n < 10 then Char.ofNat ('0'.toNat + n) else Char.ofNat ('a'.toNat + n - 10)

/-- The characters `json.dumps` (with `ensure_ascii=False`) emits for one
character of a string: short escapes for the quote, backslash and the
usual control characters, `\u00xx` for the remaining controls, the
character itself otherwise. -/
def jsonEscChar (c : Char) : List Char :=
  if c = '"' then ['\\', '"']
  else if c = '\\' then ['\\', '\\']
  else if c = '\n' then ['\\', 'n']
  else if c = '\r' then ['\\', 'r']
  else if c = '\t' then ['\\', 't']
  else if c = Char.ofNat 8 then ['\\', 'b']
  else if c = Char.ofNat 12 then ['\\', 'f']
  else if c.toNat < 32 then
    ['\\', 'u', '0', '0', hexDigitChar (c.toNat / 16), hexDigitChar (c.toNat % 16)]
  else [c]

/-- Escaped body of a JSON string. -/
def jsonEscChars (cs : List Char) : List Char := cs.flatMap jsonEscChar

/-- A JSON string literal: quote, escaped body, quote. -/
def jsonStrChars (s : String) : List Char := '"' :: (jsonEscChars s.data ++ ['"'])

mutual

/-- `json.dumps` with `ensure_ascii=False`, on the character level:
default separators, so `", "` between items and `": "` after keys. -/
def jvalChars : JVal → List Char
  | .null => "null".data
  | .bool b => if b then "true".data else "false".data
  | .num n => (toString n).data
  | .str s => jsonStrChars s
  | .arr xs => '[' :: (jvalListChars xs ++ [']'])
  | .obj fs => '\x7b' :: (jvalObjChars fs ++ ['\x7d'])

/-- Array elements, `", "`-separated. -/
def jvalListChars : List JVal → List Char
  | [] => []
  | [x] => jvalChars x
  | x :: xs => jvalChars x ++ ',' :: ' ' :: jvalListChars xs

/-- Object members, `", "`-separated, `": "` after each key. -/
def jvalObjChars : List (String × JVal) → List Char
  | [] => []
  | [kv] => jsonStrChars kv.1 ++ ':' :: ' ' :: jvalChars kv.2
  | kv :: fs =>
    jsonStrChars kv.1 ++ ':' :: ' ' :: jvalChars kv.2 ++ ',' :: ' ' :: jvalObjChars fs

end

/-- `json.dumps(v, ensure_ascii=False)`. -/
def pyJsonDumps (v : JVal) : String := ⟨jvalChars v⟩

/-! ## The store state

One field per relation the loader touches, plus the printed log.  A
relation is a row list in insertion order; `COPY` appends, `DELETE`
filters, `TRUNCATE` empties. -/

/-- A row of `raw.imat_info`. -/
structure InfoRow where
  split : String
  info : String
deriving DecidableEq, Repr

/-- A row of `raw.imat_license`. -/
structure LicenseRow where
  split : String
  license : String
deriving DecidableEq, Repr

/-- A row of `raw.imat_images`. -/
structure ImageRow where
  split : String
  image_id : Int
  url : String
deriving DecidableEq, Repr

/-- A row of `raw.imat_annotations`; `label_ids` holds the JSON text
sent to the `JSONB` column. -/
structure AnnRow where
  split : String
  image_id : Int
  label_ids : String
deriving DecidableEq, Repr

/-- A row of `raw.imat_label_map`. -/
structure LabelMapRow where
  label_id : Int
  task_id : Int
  label_name : String
  task_name : String
deriving DecidableEq, Repr

/-- The store (plus stdout). The connection is autocommit, so each
statement's effect persists immediately. -/
structure DB where
  imat_label_map : List LabelMapRow
  imat_info : List InfoRow
  imat_license : List LicenseRow
  imat_images : List ImageRow
  imat_annotations : List AnnRow
  output : List String
deriving DecidableEq, Repr

/-- `print(msg)`. -/
def DB.print (db : DB) (msg : String) : DB :=
  { db with output := db.output ++ [msg] }

/-! ## Input files -/

/-- A JSON input file as the loader sees it: absent, syntactically
malformed, or a parsed document. `name` is `json_path.name`. -/
inductive JsonFile where
  | missing (name : String)
  | malformed (name : String)
  | wellFormed (name : String) (doc : JVal)

/-- One spreadsheet row as `df.iterrows()` yields it: the four columns
`generate()` reads, as raw cell values. -/
structure XRow where
  labelId : JVal
  taskId : JVal
  labelName : JVal
  taskName : JVal

/-- The spreadsheet file: absent, unreadable by `pd.read_excel`, or a
fully read data frame. -/
inductive XlsxFile where
  | missing (name : String)
  | unreadable (name : String)
  | wellFormed (name : String) (rows : List XRow)

/-- `ijson.items(f, key ++ ".item")` on the whole document: the elements
of the array at top-level `key`, empty when the key is absent or its
value is not an array. -/
def streamItems (doc : JVal) (key : String) : List JVal :=
  match doc with
  | .obj fs =>
    match lookupField fs key with
    | some (.arr xs) => xs
    | _ => []
  | _ => []

/-- Transform every element in order, failing on the first error — the
shape of a transforming loop or generator that is consumed fail-fast. -/
def mapE {α β : Type} (f : α → Except PyErr β) : List α → Except PyErr (List β)
  | [] => .ok []
  | a :: rest =>
    match f a with
    | .error e => .error e
    | .ok b =>
      match mapE f rest with
      | .error e => .error e
      | .ok bs => .ok (b :: bs)

/-! ## SQL statement effects -/

/-- `DELETE FROM raw.imat_info WHERE split = %s`. -/
def deleteInfo (db : DB) (split : String) : DB :=
  { db with imat_info := db.imat_info.filter (fun r => ¬ r.split = split) }

/-- `DELETE FROM raw.imat_license WHERE split = %s`. -/
def deleteLicense (db : DB) (split : String) : DB :=
  { db with imat_license := db.imat_license.filter (fun r => ¬ r.split = split) }

/-- `DELETE FROM raw.imat_images WHERE split = %s`. -/
def deleteImages (db : DB) (split : String) : DB :=
  { db with imat_images := db.imat_images.filter (fun r => ¬ r.split = split) }

/-- `DELETE FROM raw.imat_annotations WHERE split = %s`. -/
def deleteAnns (db : DB) (split : String) : DB :=
  { db with imat_annotations := db.imat_annotations.filter (fun r => ¬ r.split = split) }

/-- `copy_rows` into `raw.imat_images`: append the row tuples. -/
def insertImages (db : DB) (rows : List ImageRow) : DB :=
  { db with imat_images := db.imat_images ++ rows }

/-- `copy_rows` into `raw.imat_annotations`: append the row tuples. -/
def insertAnns (db : DB) (rows : List AnnRow) : DB :=
  { db with imat_annotations := db.imat_annotations ++ rows }

/-! ## The loaders -/

/-- The transform the images loop applies to one streamed element:
`image_id = int(img["imageId"])` then `url = str(img["url"])`, in that
evaluation order, giving the tuple `(split, image_id, url)`. -/
def imgRowE (split : String) (img : JVal) : Except PyErr ImageRow :=
  match subscr img "imageId" with
  | .error e => .error e
  | .ok iv =>
    match pyIntE iv with
    | .error e => .error e
    | .ok image_id =>
      match subscr img "url" with
      | .error e => .error e
      | .ok uv => .ok ⟨split, image_id, pyStr uv⟩

/-- The transform the annotations loop applies to one streamed element:
`image_id = int(ann["imageId"])`, `label_ids = ann["labelId"]`, giving
`(split, image_id, json.dumps(label_ids))`. -/
def annRowE (split : String) (el : JVal) : Except PyErr AnnRow :=
  match subscr el "imageId" with
  | .error e => .error e
  | .ok iv =>
    match pyIntE iv with
    | .error e => .error e
    | .ok image_id =>
      match subscr el "labelId" with
      | .error e => .error e
      | .ok lv => .ok ⟨split, image_id, pyJsonDumps lv⟩

/-- The buffer/flush loop state shared by the images and annotations
loaders: the store, the `buffer` list, and the `total` counter. -/
structure Loop (β : Type) where
  db : DB
  buffer : List β
  total : Nat

/-- `flush()`: a no-op on an empty buffer, otherwise one `COPY` of the
buffered rows (appended via `ins`), the `total` update, and
`buffer.clear()`. -/
def flushWith {β : Type} (ins : DB → List β → DB) (st : Loop β) : Loop β :=
  if st.buffer.isEmpty then st
  else ⟨ins st.db st.buffer, [], st.total + st.buffer.length⟩

/-- The streaming loop body shared by both loaders: transform the
element (an exception propagates, discarding the buffer), append the
row to the buffer, and flush when `len(buffer) >= batch_size`. -/
def runLoop {β : Type} (rowE : JVal → Except PyErr β) (ins : DB → List β → DB)
    (bs : Nat) : List JVal → Loop β → Except (PyErr × Loop β) (Loop β)
  | [], st => .ok st
  | e :: rest, st =>
    match rowE e with
    | .error err => .error (err, st)
    | .ok row =>
      let st' : Loop β := ⟨st.db, st.buffer ++ [row], st.total⟩
      runLoop rowE ins bs rest
        (if bs ≤ st'.buffer.length then flushWith ins st' else st')

/-- `load_imat_split_info_and_license`: existence check, full
`json.load`, then — unless both top-level keys are absent, which is a
printed skip — delete the split's info/license rows and insert the
present ones. -/
def load_imat_split_info_and_license (file : JsonFile) (split : String)
    (db : DB) : Except (PyErr × DB) DB :=
  match file with
  | .missing name => .error (.fileNotFoundError name, db)
  | .malformed name => .error (.jsonParseError name, db)
  | .wellFormed name doc =>
    match pyGet doc "info" with
    | .error e => .error (e, db)
    | .ok info_obj =>
      match pyGet doc "license" with
      | .error e => .error (e, db)
      | .ok license_obj =>
        if info_obj.isNone && license_obj.isNone then
          .ok (db.print ("[SKIP] " ++ split ++ ": no info/license in " ++ name))
        else
          let db := deleteInfo db split
          let db := deleteLicense db split
          let db :=
            match info_obj with
            | some v => { db with imat_info := db.imat_info ++ [({ split := split, info := pyJsonDumps v } : InfoRow)] }
            | none => db
          let db :=
            match license_obj with
            | some v => { db with imat_license := db.imat_license ++ [({ split := split, license := pyJsonDumps v } : LicenseRow)] }
            | none => db
          .ok (db.print ("[OK] " ++ split ++ ": loaded info/license (if present)"))

/-- `load_imat_split_images`: existence check, the split's `DELETE`,
then the streamed buffer/flush loop over `images.item` and the final
flush. On malformed JSON the `DELETE` has already run when `ijson`
raises mid-iteration. -/
def load_imat_split_images (file : JsonFile) (split : String) (bs : Nat)
    (db : DB) : Except (PyErr × DB) DB :=
  match file with
  | .missing name => .error (.fileNotFoundError name, db)
  | .malformed name => .error (.jsonParseError name, deleteImages db split)
  | .wellFormed _ doc =>
    let db := deleteImages db split
    match runLoop (imgRowE split) insertImages bs (streamItems doc "images") ⟨db, [], 0⟩ with
    | .error (err, st) => .error (err, st.db)
    | .ok st =>
      let st := flushWith insertImages st
      .ok (st.db.print ("[OK] " ++ split ++ ": loaded images -> raw.imat_images ("
        ++ toString st.total ++ " rows)"))

/-- `load_imat_split_annotations`: the same shape as the images loader,
over `annotations.item` into `raw.imat_annotations`. -/
def load_imat_split_annotations (file : JsonFile) (split : String) (bs : Nat)
    (db : DB) : Except (PyErr × DB) DB :=
  match file with
  | .missing name => .error (.fileNotFoundError name, db)
  | .malformed name => .error (.jsonParseError name, deleteAnns db split)
  | .wellFormed _ doc =>
    let db := deleteAnns db split
    match runLoop (annRowE split) insertAnns bs (streamItems doc "annotations") ⟨db, [], 0⟩ with
    | .error (err, st) => .error (err, st.db)
    | .ok st =>
      let st := flushWith insertAnns st
      .ok (st.db.print ("[OK] " ++ split ++ ": loaded annotations -> raw.imat_annotations ("
        ++ toString st.total ++ " rows)"))

/-- `load_imat_split`: the three steps in order, `batch_size` left at
its default of `20000`. -/
def load_imat_split (file : JsonFile) (split : String) (db : DB) :
    Except (PyErr × DB) DB :=
  match load_imat_split_info_and_license file split db with
  | .error e => .error e
  | .ok db1 =>
    match load_imat_split_images file split 20000 db1 with
    | .error e => .error e
    | .ok db2 => load_imat_split_annotations file split 20000 db2

/-- The tuple `generate()` yields for one spreadsheet row. -/
def xRowE (r : XRow) : Except PyErr LabelMapRow :=
  match pyIntE r.labelId with
  | .error e => .error e
  | .ok lid =>
    match pyIntE r.taskId with
    | .error e => .error e
    | .ok tid => .ok ⟨lid, tid, pyStr r.labelName, pyStr r.taskName⟩

/-- `load_label_map`: existence check, full spreadsheet read, `TRUNCATE`,
then one `COPY` fed by `generate()`. A row the generator cannot coerce
aborts the whole `COPY` batch (none of its rows land), the `TRUNCATE`
having already been committed. -/
def load_label_map (file : XlsxFile) (db : DB) : Except (PyErr × DB) DB :=
  match file with
  | .missing name => .error (.fileNotFoundError name, db)
  | .unreadable name => .error (.excelReadError name, db)
  | .wellFormed _ rows =>
    let db := { db with imat_label_map := ([] : List LabelMapRow) }
    match mapE xRowE rows with
    | .error e => .error (e, db)
    | .ok newRows =>
      .ok (({ db with imat_label_map := db.imat_label_map ++ newRows }).print
        ("[OK] label_map loaded: " ++ toString rows.length ++ " rows -> raw.imat_label_map"))

/-! ## The CSV serialization of `copy_rows`

`copy_rows` drives `csv.writer` — default "excel" dialect: delimiter
`,`, quote character `"`, doubled quotes, line terminator CRLF, minimal
quoting — one row at a time, streaming each produced line into
`COPY ... FROM STDIN WITH (FORMAT CSV)`. -/

/-- Minimal quoting: a field is quoted iff it contains the delimiter,
the quote character, or a line-terminator character. -/
def csvNeedsQuote (cs : List Char) : Bool :=
  cs.any (fun c => c == ',' || c == '"' || c == '\r' || c == '\n')

/-- Quoted-field body: every quote character doubled. -/
def csvQuoteChars (cs : List Char) : List Char :=
  cs.flatMap (fun c => if c == '"' then ['"', '"'] else [c])

/-- One encoded field under minimal quoting. -/
def csvEncField (cs : List Char) : List Char :=
  if csvNeedsQuote cs then '"' :: (csvQuoteChars cs ++ ['"']) else cs

/-- Fields joined with the delimiter. -/
def csvJoin : List (List Char) → List Char
  | [] => []
  | [f] => f
  | f :: fs => f ++ ',' :: csvJoin fs

/-- The line `writer.writerow(fields)` emits (and `copy.write` sends),
CRLF-terminated. A row consisting of a single empty field is written as
`""` — `csv.writer`'s special case distinguishing it from an empty
row. Non-string values have been turned into text by the writer at this
point, so fields are strings here. -/
def csvWriteRow (fields : List String) : String :=
  match fields with
  | [] => ⟨['\r', '\n']⟩
  | [f] =>
    ⟨(if f.data.isEmpty then ['"', '"'] else csvEncField f.data) ++ ['\r', '\n']⟩
  | fs => ⟨csvJoin (fs.map (fun f => csvEncField f.data)) ++ ['\r', '\n']⟩

/-- States of the CSV-line reader below. -/
inductive CsvSt where
  /-- Nothing consumed yet. -/
  | lineStart
  /-- Just after a delimiter: a field begins here. -/
  | fieldStart (done : List String)
  /-- Inside an unquoted field. -/
  | unq (done : List String) (acc : List Char)
  /-- Inside a quoted field. -/
  | quo (done : List String) (acc : List Char)
  /-- Inside a quoted field, just after a quote character. -/
  | quoQ (done : List String) (acc : List Char)
  /-- Saw the CR of the terminator. -/
  | gotCR (fields : List String)
  /-- A full, correctly terminated line. -/
  | accept (fields : List String)
  /-- Not a well-formed CSV line. -/
  | reject

/-- Modelled from the spec: one character of the delimited-text decode
performed by the target store's CSV `COPY` path (the repository only
emits this format; the store-side reader is external to it). Quoted
fields unescape doubled quotes; delimiter and CR end fields; the line
must end in exactly CRLF. -/
def csvStep (st : CsvSt) (c : Char) : CsvSt :=
  match st with
  | .lineStart =>
    if c = '"' then .quo [] []
    else if c = ',' then .fieldStart [""]
    else if c = '\r' then .gotCR []
    else if c = '\n' then .reject
    else .unq [] [c]
  | .fieldStart done =>
    if c = '"' then .quo done []
    else if c = ',' then .fieldStart (done ++ [""])
    else if c = '\r' then .gotCR (done ++ [""])
    else if c = '\n' then .reject
    else .unq done [c]
  | .unq done acc =>
    if c = ',' then .fieldStart (done ++ [⟨acc⟩])
    else if c = '\r' then .gotCR (done ++ [⟨acc⟩])
    else if c = '\n' then .reject
    else .unq done (acc ++ [c])
  | .quo done acc =>
    if c = '"' then .quoQ done acc
    else .quo done (acc ++ [c])
  | .quoQ done acc =>
    if c = '"' then .quo done (acc ++ ['"'])
    else if c = ',' then .fieldStart (done ++ [⟨acc⟩])
    else if c = '\r' then .gotCR (done ++ [⟨acc⟩])
    else .reject
  | .gotCR fields => if c = '\n' then .accept fields else .reject
  | .accept _ => .reject
  | .reject => .reject

/-- Modelled from the spec: decode one emitted CSV line back into its
field values (the store-side reader, external to the repository). -/
def csvParseRow (s : String) : Option (List String) :=
  match s.data.foldl csvStep .lineStart with
  | .accept fields => some fields
  | _ => none

/-! ## Decoding the stored `label_ids` document

The annotations loader stores `json.dumps(label_ids)`; the claim to
check is that decoding that document recovers the original sequence. -/

/-- Hex digit value, both cases accepted. -/
def hexVal? (c : Char) : Option Nat :=
  if '0' ≤ c ∧ c ≤ '9' then some (c.toNat - '0'.toNat)
  else if 'a' ≤ c ∧ c ≤ 'f' then some (c.toNat - 'a'.toNat + 10)
  else if 'A' ≤ c ∧ c ≤ 'F' then some (c.toNat - 'A'.toNat + 10)
  else none

/-- Value of a hex digit string (digits already validated). -/
def hexListVal (ds : List Char) : Nat :=
  ds.foldl (fun a c => a * 16 + ((hexVal? c).getD 0)) 0

/-- States of the JSON string-array reader below. -/
inductive JSt where
  /-- Nothing consumed yet. -/
  | start
  /-- After `[`: a first element or the closing bracket. -/
  | elemOrEnd
  /-- Inside a string element. -/
  | inStr (done : List String) (acc : List Char)
  /-- Just after a backslash inside a string element. -/
  | esc (done : List String) (acc : List Char)
  /-- Inside a `\uXXXX` escape, hex digits collected so far. -/
  | escU (done : List String) (acc : List Char) (pending : List Char)
  /-- After a closing string quote: a comma or the closing bracket. -/
  | afterStr (done : List String)
  /-- After a comma: optional spaces then the next string element. -/
  | afterComma (done : List String)
  /-- A full well-formed array of strings. -/
  | accept (strs : List String)
  /-- Not a well-formed array of strings. -/
  | reject

/-- Modelled from the spec: one character of the JSON decode applied to
the stored `label_ids` document (performed by the store's `JSONB`
parser, external to the repository). Handles the standard string
escapes including `\uXXXX`. -/
def jsonStep (st : JSt) (c : Char) : JSt :=
  match st with
  | .start => if c = '[' then .elemOrEnd else .reject
  | .elemOrEnd =>
    if c = '"' then .inStr [] []
    else if c = ']' then .accept []
    else .reject
  | .inStr done acc =>
    if c = '"' then .afterStr (done ++ [⟨acc⟩])
    else if c = '\\' then .esc done acc
    else .inStr done (acc ++ [c])
  | .esc done acc =>
    if c = '"' then .inStr done (acc ++ ['"'])
    else if c = '\\' then .inStr done (acc ++ ['\\'])
    else if c = '/' then .inStr done (acc ++ ['/'])
    else if c = 'n' then .inStr done (acc ++ ['\n'])
    else if c = 'r' then .inStr done (acc ++ ['\r'])
    else if c = 't' then .inStr done (acc ++ ['\t'])
    else if c = 'b' then .inStr done (acc ++ [Char.ofNat 8])
    else if c = 'f' then .inStr done (acc ++ [Char.ofNat 12])
    else if c = 'u' then .escU done acc []
    else .reject
  | .escU done acc pending =>
    match hexVal? c with
    | none => .reject
    | some _ =>
      if pending.length = 3 then
        .inStr done (acc ++ [Char.ofNat (hexListVal (pending ++ [c]))])
      else .escU done acc (pending ++ [c])
  | .afterStr done =>
    if c = ',' then .afterComma done
    else if c = ']' then .accept done
    else .reject
  | .afterComma done =>
    if c = ' ' then .afterComma done
    else if c = '"' then .inStr done []
    else .reject
  | .accept _ => .reject
  | .reject => .reject

/-- Modelled from the spec: decode a stored document that is a JSON
array of strings back into the string list (the store-side `JSONB`
decode, external to the repository). -/
def parseJsonStrList (s : String) : Option (List String) :=
  match s.data.foldl jsonStep .start with
  | .accept strs => some strs
  | _ => none

/-! ## List and `mapE` lemmas -/

/-- The `raw.imat_info` rows the info/license step inserts for an
optional top-level `info` value. -/
def infoRowsOf (split : String) (obj? : Option JVal) : List InfoRow :=
  match obj? with
  | some v => [{ split := split, info := pyJsonDumps v }]
  | none => []

/-- The `raw.imat_license` rows the info/license step inserts for an
optional top-level `license` value. -/
def licenseRowsOf (split : String) (obj? : Option JVal) : List LicenseRow :=
  match obj? with
  | some v => [{ split := split, license := pyJsonDumps v }]
  | none => []

/-- Concrete twice-loaded document for the C1 witness. -/
def C1file : JsonFile :=
  .wellFormed "train.json" (.obj
    [("images", .arr [.obj [("imageId", .str "1"), ("url", .str "http://x/1.jpg")]]),
     ("annotations", .arr [.obj [("imageId", .str "1"), ("labelId", .arr [.str "5", .str "9"])]])])

/-- The empty store. -/
def emptyDB : DB := ⟨[], [], [], [], [], []⟩

/-- Store after loading `C1file` once. -/
def C1db1 : DB := (load_imat_split C1file "train" emptyDB).toOption.getD emptyDB

/-- Store after loading `C1file` twice. -/
def C1db2 : DB := (load_imat_split C1file "train" C1db1).toOption.getD emptyDB

/-- Four well-formed image elements and two annotation elements: with a
batch size of 3 neither count is a multiple of it. -/
def C2doc : JVal := .obj
  [("images", .arr
     [.obj [("imageId", .str "1"), ("url", .str "http://x/1.jpg")],
      .obj [("imageId", .str "2"), ("url", .str "http://x/2.jpg")],
      .obj [("imageId", .str "3"), ("url", .str "http://x/3.jpg")],
      .obj [("imageId", .str "4"), ("url", .str "http://x/4.jpg")]]),
   ("annotations", .arr
     [.obj [("imageId", .str "1"), ("labelId", .arr [.str "5"])],
      .obj [("imageId", .str "2"), ("labelId", .arr [.str "9"])]])]

/-- The image rows of `C2doc`. -/
def C2imgRows : List ImageRow :=
  (mapE (imgRowE "train") (streamItems C2doc "images")).toOption.getD []

/-- The annotation rows of `C2doc`. -/
def C2annRows : List AnnRow :=
  (mapE (annRowE "train") (streamItems C2doc "annotations")).toOption.getD []

/-- The loop state after streaming the three image elements of `C7elems`
with batch size 2. -/
def C7elems : List JVal :=
  [.obj [("imageId", .str "1"), ("url", .str "u1")],
   .obj [("imageId", .str "2"), ("url", .str "u2")],
   .obj [("imageId", .str "3"), ("url", .str "u3")]]

/-- Loop state reached on `C7elems` with batch size 2. -/
def C7st : Loop ImageRow :=
  (runLoop (imgRowE "train") insertImages 2 C7elems
    (⟨emptyDB, [], 0⟩ : Loop ImageRow)).toOption.getD ⟨emptyDB, [], 0⟩

/-- A store with leftover info/license rows for split `"validation"`. -/
def C9db : DB :=
  ⟨[], [⟨"validation", "old-info"⟩], [⟨"validation", "old-license"⟩], [], [], []⟩

/-- Fields of a document with neither `"info"` nor `"license"`. -/
def C9fs : List (String × JVal) := [("images", .arr []), ("annotations", .arr [])]

/-- Fields of the C6 document: no top-level `"info"`/`"license"`. -/
def C6fs : List (String × JVal) := [("images", .arr []), ("annotations", .arr [])]

/-- A store holding a `SplitInfo` row for `"validation"` from an earlier
run. -/
def C6db : DB := ⟨[], [⟨"validation", "old-info"⟩], [], [], [], []⟩

/-- Result of the info/license step of C6's document on `C6db`. -/
def C6db1 : DB :=
  (load_imat_split_info_and_license (.wellFormed "validation.json" (.obj C6fs))
    "validation" C6db).toOption.getD emptyDB

/-- Document for C4: `"info"` bound to JSON `null` (which Python's
`data.get` cannot distinguish from an absent key), no `"license"`, one
image, no annotations. -/
def C4file : JsonFile :=
  .wellFormed "train.json" (.obj
    [("info", .null),
     ("images", .arr [.obj [("imageId", .str "7"), ("url", .str "u7")]]),
     ("annotations", .arr [])])

/-- A store still holding info/license rows for `"train"` from an
earlier run whose document did carry them. -/
def C4db : DB :=
  ⟨[], [⟨"train", "stale-info"⟩], [⟨"train", "stale-license"⟩], [], [], []⟩

/-- Result of the C4 load. -/
def C4db1 : DB := (load_imat_split C4file "train" C4db).toOption.getD emptyDB

/-- First C3 document: its single image element lacks `"url"`. -/
def C3elemA : JVal := .obj [("imageId", .str "1")]

/-- Second C3 document's image element: also lacks `"url"`, but is a
different raw element. -/
def C3elemB : JVal := .obj [("imageId", .str "2")]

/-- C3 witness document: one good element, then one missing `"url"`,
then one more element that must never be loaded; annotations that must
never be loaded. -/
def C3doc : JVal := .obj
  [("images", .arr
     [.obj [("imageId", .str "1"), ("url", .str "u1")],
      .obj [("imageId", .str "2")],
      .obj [("imageId", .str "3"), ("url", .str "u3")]]),
   ("annotations", .arr [.obj [("imageId", .str "1"), ("labelId", .arr [.str "5"])]])]

/-- Store after C3's info/license step (a skip). -/
def C3dbIL : DB :=
  (load_imat_split_info_and_license (.wellFormed "train.json" C3doc) "train"
    emptyDB).toOption.getD emptyDB

/-- The row of C3's good prefix. -/
def C3rows : List ImageRow :=
  (mapE (imgRowE "train") [.obj [("imageId", .str "1"), ("url", .str "u1")]]).toOption.getD []

/-- The `", "`-separated continuation of a serialized string array after
its first element. -/
def jsonTailChars : List String → List Char
  | [] => []
  | s :: rest => ',' :: ' ' :: (jsonStrChars s ++ jsonTailChars rest)

/-- The annotation element of the C5 witness. -/
def C5el : JVal :=
  .obj [("imageId", .str "1"), ("labelId", .arr [.str "95", .str "66", .str "12"])]

/-- The stored row of the C5 witness. -/
def C5row : AnnRow := (annRowE "train" C5el).toOption.getD ⟨"", 0, ""⟩

theorem filter_idem {α : Type} (p : α → Bool) (l : List α) :
    (l.filter p).filter p = l.filter p := by
  induction l with
  | nil => rfl
  | cons a l ih =>
    by_cases h : p a
    · simp [List.filter_cons, h, ih]
    · simp [List.filter_cons, h, ih]

theorem mapE_length {α β : Type} {f : α → Except PyErr β} :
    ∀ {l : List α} {bs : List β}, mapE f l = .ok bs → bs.length = l.length := by
  intro l
  induction l with
  | nil =>
    intro bs h
    simp only [mapE] at h
    cases h
    rfl
  | cons a rest ih =>
    intro bs h
    simp only [mapE] at h
    split at h
    · cases h
    · split at h
      · cases h
      · cases h
        simpa using ih (by assumption)

theorem mapE_mem {α β : Type} {f : α → Except PyErr β} :
    ∀ {l : List α} {bs : List β}, mapE f l = .ok bs →
      ∀ b ∈ bs, ∃ a ∈ l, f a = .ok b := by
  intro l
  induction l with
  | nil =>
    intro bs h
    simp only [mapE] at h
    cases h
    intro b hb
    cases hb
  | cons a rest ih =>
    intro bs h
    simp only [mapE] at h
    split at h
    · cases h
    · split at h
      · cases h
      · cases h
        intro b hb
        rcases List.mem_cons.mp hb with hb | hb
        · subst hb
          exact ⟨a, List.mem_cons_self _ _, by assumption⟩
        · obtain ⟨a', ha', hfa'⟩ := ih (by assumption) b hb
          exact ⟨a', List.mem_cons_of_mem _ ha', hfa'⟩

theorem mapE_error_split {α β : Type} {f : α → Except PyErr β} :
    ∀ {l : List α} {err : PyErr}, mapE f l = .error err →
      ∃ good bad rest rows, l = good ++ bad :: rest ∧
        mapE f good = .ok rows ∧ f bad = .error err := by
  intro l
  induction l with
  | nil =>
    intro err h
    simp only [mapE] at h
    cases h
  | cons a rest ih =>
    intro err h
    simp only [mapE] at h
    split at h
    · cases h
      exact ⟨[], a, rest, [], rfl, rfl, by assumption⟩
    · split at h
      · cases h
        rename_i b hfa bs' hrest
        obtain ⟨good, bad, rest', rows, hsplit, hgood, hbad⟩ := ih hrest
        refine ⟨a :: good, bad, rest', b :: rows, by simp [hsplit], ?_, hbad⟩
        simp only [mapE, hfa, hgood]
      · cases h

/-! ## Generic loop lemmas -/

theorem flushWith_db {β : Type} (ins : DB → List β → DB)
    (hnil : ∀ db, ins db [] = db) (st : Loop β) :
    (flushWith ins st).db = ins st.db st.buffer := by
  unfold flushWith
  split
  · rename_i h
    rw [List.isEmpty_iff.mp h, hnil]
  · rfl

theorem runLoop_ok {β : Type} (rowE : JVal → Except PyErr β)
    (ins : DB → List β → DB) (bs : Nat)
    (hins : ∀ db a b, ins (ins db a) b = ins db (a ++ b))
    (hnil : ∀ db, ins db [] = db) :
    ∀ {items : List JVal} {rows : List β} (st : Loop β),
      mapE rowE items = .ok rows →
      ∃ st', runLoop rowE ins bs items st = .ok st' ∧
        ∃ chunk, st'.db = ins st.db chunk ∧
          chunk ++ st'.buffer = st.buffer ++ rows := by
  intro items
  induction items with
  | nil =>
    intro rows st h
    simp only [mapE] at h
    cases h
    exact ⟨st, rfl, [], (hnil st.db).symm, by simp⟩
  | cons e rest ih =>
    intro rows st h
    simp only [mapE] at h
    cases hrowE : rowE e with
    | error err => rw [hrowE] at h; cases h
    | ok row =>
      rw [hrowE] at h
      cases hrest : mapE rowE rest with
      | error err => rw [hrest] at h; cases h
      | ok rows' =>
        rw [hrest] at h
        cases h
        simp only [runLoop, hrowE]
        by_cases hb : bs ≤ st.buffer.length + 1
        · have hcond : bs ≤ (st.buffer ++ [row]).length := by
            simpa using hb
          obtain ⟨st', hrun, chunk, hdb, hcat⟩ :=
            ih (flushWith ins ⟨st.db, st.buffer ++ [row], st.total⟩) hrest
          have hfe : (st.buffer ++ [row]).isEmpty = false := by
            simp [List.isEmpty_iff]
          refine ⟨st', ?_, (st.buffer ++ [row]) ++ chunk, ?_, ?_⟩
          · rw [if_pos hcond]
            exact hrun
          · rw [hdb]
            simp only [flushWith, hfe, Bool.false_eq_true, if_false]
            rw [hins]
          · have hbuf : (flushWith ins ⟨st.db, st.buffer ++ [row], st.total⟩).buffer = [] := by
              simp only [flushWith, hfe, Bool.false_eq_true, if_false]
            rw [hbuf, List.nil_append] at hcat
            rw [List.append_assoc, hcat]
            simp
        · have hcond : ¬ bs ≤ (st.buffer ++ [row]).length := by
            simpa using hb
          obtain ⟨st', hrun, chunk, hdb, hcat⟩ :=
            ih (⟨st.db, st.buffer ++ [row], st.total⟩ : Loop β) hrest
          refine ⟨st', ?_, chunk, hdb, ?_⟩
          · rw [if_neg hcond]
            exact hrun
          · rw [hcat]
            simp

theorem runLoop_error {β : Type} (rowE : JVal → Except PyErr β)
    (ins : DB → List β → DB) (bs : Nat)
    (hins : ∀ db a b, ins (ins db a) b = ins db (a ++ b))
    (hnil : ∀ db, ins db [] = db) :
    ∀ {good : List JVal} {bad : JVal} {rest : List JVal} {rows : List β}
      {err : PyErr} (st : Loop β),
      mapE rowE good = .ok rows → rowE bad = .error err →
      ∃ st', runLoop rowE ins bs (good ++ bad :: rest) st = .error (err, st') ∧
        ∃ chunk, st'.db = ins st.db chunk ∧
          chunk ++ st'.buffer = st.buffer ++ rows := by
  intro good
  induction good with
  | nil =>
    intro bad rest rows err st h hbad
    simp only [mapE] at h
    cases h
    refine ⟨st, ?_, [], (hnil st.db).symm, by simp⟩
    simp only [List.nil_append, runLoop, hbad]
  | cons e more ih =>
    intro bad rest rows err st h hbad
    simp only [mapE] at h
    cases hrowE : rowE e with
    | error e' => rw [hrowE] at h; cases h
    | ok row =>
      rw [hrowE] at h
      cases hmore : mapE rowE more with
      | error e' => rw [hmore] at h; cases h
      | ok rows' =>
        rw [hmore] at h
        cases h
        simp only [List.cons_append, runLoop, hrowE]
        by_cases hb : bs ≤ st.buffer.length + 1
        · have hcond : bs ≤ (st.buffer ++ [row]).length := by simpa using hb
          obtain ⟨st', hrun, chunk, hdb, hcat⟩ :=
            ih (flushWith ins ⟨st.db, st.buffer ++ [row], st.total⟩) hmore hbad
          have hfe : (st.buffer ++ [row]).isEmpty = false := by
            simp [List.isEmpty_iff]
          refine ⟨st', ?_, (st.buffer ++ [row]) ++ chunk, ?_, ?_⟩
          · rw [if_pos hcond]
            exact hrun
          · rw [hdb]
            simp only [flushWith, hfe, Bool.false_eq_true, if_false]
            rw [hins]
          · have hbuf : (flushWith ins ⟨st.db, st.buffer ++ [row], st.total⟩).buffer = [] := by
              simp only [flushWith, hfe, Bool.false_eq_true, if_false]
            rw [hbuf, List.nil_append] at hcat
            rw [List.append_assoc, hcat]
            simp
        · have hcond : ¬ bs ≤ (st.buffer ++ [row]).length := by simpa using hb
          obtain ⟨st', hrun, chunk, hdb, hcat⟩ :=
            ih (⟨st.db, st.buffer ++ [row], st.total⟩ : Loop β) hmore hbad
          refine ⟨st', ?_, chunk, hdb, ?_⟩
          · rw [if_neg hcond]
            exact hrun
          · rw [hcat]
            simp

theorem runLoop_buffer_lt {β : Type} (rowE : JVal → Except PyErr β)
    (ins : DB → List β → DB) (bs : Nat) (hbs : 1 ≤ bs) :
    ∀ {items : List JVal} {st st' : Loop β}, st.buffer.length < bs →
      runLoop rowE ins bs items st = .ok st' → st'.buffer.length < bs := by
  intro items
  induction items with
  | nil =>
    intro st st' hlt h
    simp only [runLoop] at h
    cases h
    exact hlt
  | cons e rest ih =>
    intro st st' hlt h
    simp only [runLoop] at h
    cases hrowE : rowE e with
    | error err => rw [hrowE] at h; cases h
    | ok row =>
      rw [hrowE] at h
      dsimp only at h
      by_cases hb : bs ≤ (st.buffer ++ [row]).length
      · rw [if_pos hb] at h
        have hfe : (st.buffer ++ [row]).isEmpty = false := by
          simp [List.isEmpty_iff]
        have hbuf : (flushWith ins ⟨st.db, st.buffer ++ [row], st.total⟩).buffer = [] := by
          simp only [flushWith, hfe, Bool.false_eq_true, if_false]
        refine ih ?_ h
        rw [hbuf]
        simpa using hbs
      · rw [if_neg hb] at h
        refine ih ?_ h
        simpa using Nat.lt_of_not_le hb

/-! ## Loader characterizations -/

theorem insertImages_assoc (db : DB) (a b : List ImageRow) :
    insertImages (insertImages db a) b = insertImages db (a ++ b) := by
  simp [insertImages]

theorem insertImages_nil (db : DB) : insertImages db [] = db := by
  simp [insertImages]

theorem insertAnns_assoc (db : DB) (a b : List AnnRow) :
    insertAnns (insertAnns db a) b = insertAnns db (a ++ b) := by
  simp [insertAnns]

theorem insertAnns_nil (db : DB) : insertAnns db [] = db := by
  simp [insertAnns]

theorem imgRowE_split {split : String} {img : JVal} {r : ImageRow}
    (h : imgRowE split img = .ok r) : r.split = split := by
  unfold imgRowE at h
  split at h
  · cases h
  · split at h
    · cases h
    · split at h
      · cases h
      · cases h
        rfl

theorem annRowE_split {split : String} {el : JVal} {r : AnnRow}
    (h : annRowE split el = .ok r) : r.split = split := by
  unfold annRowE at h
  split at h
  · cases h
  · split at h
    · cases h
    · split at h
      · cases h
      · cases h
        rfl

theorem annRowE_label_ids {split : String} {el : JVal} {r : AnnRow} {lv : JVal}
    (h : annRowE split el = .ok r) (hlv : subscr el "labelId" = .ok lv) :
    r.label_ids = pyJsonDumps lv := by
  unfold annRowE at h
  split at h
  · cases h
  · split at h
    · cases h
    · rw [hlv] at h
      dsimp only at h
      cases h
      rfl

theorem load_images_wf_eq (name : String) (doc : JVal) (split : String)
    (bs : Nat) (db : DB) :
    load_imat_split_images (.wellFormed name doc) split bs db =
      match runLoop (imgRowE split) insertImages bs (streamItems doc "images")
          (⟨deleteImages db split, [], 0⟩ : Loop ImageRow) with
      | .error (err, st) => .error (err, st.db)
      | .ok st => .ok ((flushWith insertImages st).db.print ("[OK] " ++ split ++
          ": loaded images -> raw.imat_images ("
          ++ toString (flushWith insertImages st).total ++ " rows)")) := rfl

theorem load_images_wf_ok (name : String) (doc : JVal) (split : String)
    (bs : Nat) (db : DB) (rows : List ImageRow)
    (h : mapE (imgRowE split) (streamItems doc "images") = .ok rows) :
    ∃ db', load_imat_split_images (.wellFormed name doc) split bs db = .ok db' ∧
      db'.imat_images = db.imat_images.filter (fun r => ¬ r.split = split) ++ rows ∧
      db'.imat_info = db.imat_info ∧ db'.imat_license = db.imat_license ∧
      db'.imat_annotations = db.imat_annotations ∧
      db'.imat_label_map = db.imat_label_map := by
  obtain ⟨st', hrun, chunk, hdb, hcat⟩ :=
    runLoop_ok (imgRowE split) insertImages bs insertImages_assoc insertImages_nil
      (⟨deleteImages db split, [], 0⟩ : Loop ImageRow) h
  have hdbfin : (flushWith insertImages st').db = insertImages (deleteImages db split) rows := by
    rw [flushWith_db insertImages insertImages_nil st', hdb,
      insertImages_assoc]
    congr 1
  simp only [load_images_wf_eq, hrun]
  refine ⟨_, rfl, ?_, ?_, ?_, ?_, ?_⟩
  all_goals simp [DB.print, hdbfin, insertImages, deleteImages]

theorem load_images_wf_error (name : String) (doc : JVal) (split : String)
    (bs : Nat) (db : DB) (good : List JVal) (bad : JVal) (rest : List JVal)
    (rows : List ImageRow) (err : PyErr)
    (hstream : streamItems doc "images" = good ++ bad :: rest)
    (hgood : mapE (imgRowE split) good = .ok rows)
    (hbad : imgRowE split bad = .error err) :
    ∃ db', load_imat_split_images (.wellFormed name doc) split bs db = .error (err, db') ∧
      (∃ buf, db'.imat_images ++ buf =
        db.imat_images.filter (fun r => ¬ r.split = split) ++ rows) ∧
      db'.imat_info = db.imat_info ∧ db'.imat_license = db.imat_license ∧
      db'.imat_annotations = db.imat_annotations ∧
      db'.imat_label_map = db.imat_label_map := by
  obtain ⟨st', hrun, chunk, hdb, hcat⟩ :=
    runLoop_error (imgRowE split) insertImages bs insertImages_assoc insertImages_nil
      (⟨deleteImages db split, [], 0⟩ : Loop ImageRow) hgood hbad
  have hload : load_imat_split_images (.wellFormed name doc) split bs db
      = .error (err, st'.db) := by
    rw [load_images_wf_eq, hstream, hrun]
  refine ⟨st'.db, hload, ⟨st'.buffer, ?_⟩, ?_, ?_, ?_, ?_⟩
  · rw [hdb]
    simp only [insertImages, deleteImages]
    simpa [List.append_assoc] using
      congrArg (db.imat_images.filter (fun r => ¬ r.split = split) ++ ·) hcat
  all_goals rw [hdb] ; simp [insertImages, deleteImages]

theorem load_images_ok_inv (name : String) (doc : JVal) (split : String)
    (bs : Nat) (db db' : DB)
    (h : load_imat_split_images (.wellFormed name doc) split bs db = .ok db') :
    ∃ rows, mapE (imgRowE split) (streamItems doc "images") = .ok rows ∧
      db'.imat_images = db.imat_images.filter (fun r => ¬ r.split = split) ++ rows ∧
      db'.imat_info = db.imat_info ∧ db'.imat_license = db.imat_license ∧
      db'.imat_annotations = db.imat_annotations ∧
      db'.imat_label_map = db.imat_label_map := by
  cases hmap : mapE (imgRowE split) (streamItems doc "images") with
  | ok rows =>
    obtain ⟨db'', hload, hrest⟩ := load_images_wf_ok name doc split bs db rows hmap
    rw [hload] at h
    cases h
    exact ⟨rows, rfl, hrest⟩
  | error err =>
    obtain ⟨good, bad, rest', rows, hsplit, hgood, hbad⟩ := mapE_error_split hmap
    obtain ⟨db'', hload, hrest⟩ :=
      load_images_wf_error name doc split bs db good bad rest' rows err hsplit hgood hbad
    rw [hload] at h
    cases h

theorem load_anns_wf_eq (name : String) (doc : JVal) (split : String)
    (bs : Nat) (db : DB) :
    load_imat_split_annotations (.wellFormed name doc) split bs db =
      match runLoop (annRowE split) insertAnns bs (streamItems doc "annotations")
          (⟨deleteAnns db split, [], 0⟩ : Loop AnnRow) with
      | .error (err, st) => .error (err, st.db)
      | .ok st => .ok ((flushWith insertAnns st).db.print ("[OK] " ++ split ++
          ": loaded annotations -> raw.imat_annotations ("
          ++ toString (flushWith insertAnns st).total ++ " rows)")) := rfl

theorem load_anns_wf_ok (name : String) (doc : JVal) (split : String)
    (bs : Nat) (db : DB) (rows : List AnnRow)
    (h : mapE (annRowE split) (streamItems doc "annotations") = .ok rows) :
    ∃ db', load_imat_split_annotations (.wellFormed name doc) split bs db = .ok db' ∧
      db'.imat_annotations = db.imat_annotations.filter (fun r => ¬ r.split = split) ++ rows ∧
      db'.imat_info = db.imat_info ∧ db'.imat_license = db.imat_license ∧
      db'.imat_images = db.imat_images ∧
      db'.imat_label_map = db.imat_label_map := by
  obtain ⟨st', hrun, chunk, hdb, hcat⟩ :=
    runLoop_ok (annRowE split) insertAnns bs insertAnns_assoc insertAnns_nil
      (⟨deleteAnns db split, [], 0⟩ : Loop AnnRow) h
  have hdbfin : (flushWith insertAnns st').db = insertAnns (deleteAnns db split) rows := by
    rw [flushWith_db insertAnns insertAnns_nil st', hdb, insertAnns_assoc]
    congr 1
  simp only [load_anns_wf_eq, hrun]
  refine ⟨_, rfl, ?_, ?_, ?_, ?_, ?_⟩
  all_goals simp [DB.print, hdbfin, insertAnns, deleteAnns]

theorem load_anns_wf_error (name : String) (doc : JVal) (split : String)
    (bs : Nat) (db : DB) (good : List JVal) (bad : JVal) (rest : List JVal)
    (rows : List AnnRow) (err : PyErr)
    (hstream : streamItems doc "annotations" = good ++ bad :: rest)
    (hgood : mapE (annRowE split) good = .ok rows)
    (hbad : annRowE split bad = .error err) :
    ∃ db', load_imat_split_annotations (.wellFormed name doc) split bs db = .error (err, db') ∧
      (∃ buf, db'.imat_annotations ++ buf =
        db.imat_annotations.filter (fun r => ¬ r.split = split) ++ rows) ∧
      db'.imat_info = db.imat_info ∧ db'.imat_license = db.imat_license ∧
      db'.imat_images = db.imat_images ∧
      db'.imat_label_map = db.imat_label_map := by
  obtain ⟨st', hrun, chunk, hdb, hcat⟩ :=
    runLoop_error (annRowE split) insertAnns bs insertAnns_assoc insertAnns_nil
      (⟨deleteAnns db split, [], 0⟩ : Loop AnnRow) hgood hbad
  have hload : load_imat_split_annotations (.wellFormed name doc) split bs db
      = .error (err, st'.db) := by
    rw [load_anns_wf_eq, hstream, hrun]
  refine ⟨st'.db, hload, ⟨st'.buffer, ?_⟩, ?_, ?_, ?_, ?_⟩
  · rw [hdb]
    simp only [insertAnns, deleteAnns]
    simpa [List.append_assoc] using
      congrArg (db.imat_annotations.filter (fun r => ¬ r.split = split) ++ ·) hcat
  all_goals rw [hdb] ; simp [insertAnns, deleteAnns]

theorem load_anns_ok_inv (name : String) (doc : JVal) (split : String)
    (bs : Nat) (db db' : DB)
    (h : load_imat_split_annotations (.wellFormed name doc) split bs db = .ok db') :
    ∃ rows, mapE (annRowE split) (streamItems doc "annotations") = .ok rows ∧
      db'.imat_annotations = db.imat_annotations.filter (fun r => ¬ r.split = split) ++ rows ∧
      db'.imat_info = db.imat_info ∧ db'.imat_license = db.imat_license ∧
      db'.imat_images = db.imat_images ∧
      db'.imat_label_map = db.imat_label_map := by
  cases hmap : mapE (annRowE split) (streamItems doc "annotations") with
  | ok rows =>
    obtain ⟨db'', hload, hrest⟩ := load_anns_wf_ok name doc split bs db rows hmap
    rw [hload] at h
    cases h
    exact ⟨rows, rfl, hrest⟩
  | error err =>
    obtain ⟨good, bad, rest', rows, hsplit, hgood, hbad⟩ := mapE_error_split hmap
    obtain ⟨db'', hload, hrest⟩ :=
      load_anns_wf_error name doc split bs db good bad rest' rows err hsplit hgood hbad
    rw [hload] at h
    cases h

theorem load_il_skip (name : String) (fs : List (String × JVal)) (split : String)
    (db : DB) (hinfo : getOpt fs "info" = none)
    (hlic : getOpt fs "license" = none) :
    load_imat_split_info_and_license (.wellFormed name (.obj fs)) split db =
      .ok (db.print ("[SKIP] " ++ split ++ ": no info/license in " ++ name)) := by
  simp only [load_imat_split_info_and_license, pyGet, hinfo, hlic,
    Option.isNone_none, Bool.and_self, if_true]

theorem load_il_present (name : String) (fs : List (String × JVal)) (split : String)
    (db : DB)
    (h : (getOpt fs "info").isSome ∨ (getOpt fs "license").isSome) :
    ∃ db', load_imat_split_info_and_license (.wellFormed name (.obj fs)) split db = .ok db' ∧
      db'.imat_info = db.imat_info.filter (fun r => ¬ r.split = split) ++
        infoRowsOf split (getOpt fs "info") ∧
      db'.imat_license = db.imat_license.filter (fun r => ¬ r.split = split) ++
        licenseRowsOf split (getOpt fs "license") ∧
      db'.imat_images = db.imat_images ∧
      db'.imat_annotations = db.imat_annotations ∧
      db'.imat_label_map = db.imat_label_map := by
  cases hinfo : getOpt fs "info" with
  | none =>
    cases hlic : getOpt fs "license" with
    | none =>
      rw [hinfo, hlic] at h
      simp at h
    | some w =>
      simp only [load_imat_split_info_and_license, pyGet, hinfo, hlic,
        Option.isNone_none, Option.isNone_some, Bool.and_false, Bool.true_and,
        Bool.false_eq_true, if_false]
      refine ⟨_, rfl, ?_, ?_, ?_, ?_, ?_⟩
      all_goals
        simp [deleteInfo, deleteLicense, DB.print, infoRowsOf, licenseRowsOf]
  | some v =>
    cases hlic : getOpt fs "license" with
    | none =>
      simp only [load_imat_split_info_and_license, pyGet, hinfo, hlic,
        Option.isNone_none, Option.isNone_some, Bool.false_and,
        Bool.false_eq_true, if_false]
      refine ⟨_, rfl, ?_, ?_, ?_, ?_, ?_⟩
      all_goals
        simp [deleteInfo, deleteLicense, DB.print, infoRowsOf, licenseRowsOf]
    | some w =>
      simp only [load_imat_split_info_and_license, pyGet, hinfo, hlic,
        Option.isNone_some, Bool.false_and,
        Bool.false_eq_true, if_false]
      refine ⟨_, rfl, ?_, ?_, ?_, ?_, ?_⟩
      all_goals
        simp [deleteInfo, deleteLicense, DB.print, infoRowsOf, licenseRowsOf]

theorem filter_not_key_nil {α : Type} (f : α → String) (split : String)
    (rows : List α) (h : ∀ r ∈ rows, f r = split) :
    rows.filter (fun r => ¬ f r = split) = [] := by
  induction rows with
  | nil => rfl
  | cons r rest ih =>
    have hr := h r (List.mem_cons_self r rest)
    simp only [List.filter_cons, hr]
    simpa using ih (fun x hx => h x (List.mem_cons_of_mem _ hx))

theorem filter_key_all {α : Type} (f : α → String) (split : String)
    (rows : List α) (h : ∀ r ∈ rows, f r = split) :
    rows.filter (fun r => f r = split) = rows := by
  induction rows with
  | nil => rfl
  | cons r rest ih =>
    have hr := h r (List.mem_cons_self r rest)
    simp only [List.filter_cons, hr]
    simpa using ih (fun x hx => h x (List.mem_cons_of_mem _ hx))

theorem filter_key_of_filter_not {α : Type} (f : α → String) (split : String)
    (rows : List α) :
    (rows.filter (fun r => ¬ f r = split)).filter (fun r => f r = split) = [] := by
  induction rows with
  | nil => rfl
  | cons r rest ih =>
    by_cases hr : f r = split
    · simp [List.filter_cons, hr, ih]
    · simp [List.filter_cons, hr, ih]

theorem load_split_ok_inv (file : JsonFile) (split : String) (db db' : DB)
    (h : load_imat_split file split db = .ok db') :
    ∃ name fs, file = .wellFormed name (.obj fs) ∧
      ∃ imgRows annRows,
        mapE (imgRowE split) (streamItems (.obj fs) "images") = .ok imgRows ∧
        mapE (annRowE split) (streamItems (.obj fs) "annotations") = .ok annRows ∧
        db'.imat_images = db.imat_images.filter (fun r => ¬ r.split = split) ++ imgRows ∧
        db'.imat_annotations =
          db.imat_annotations.filter (fun r => ¬ r.split = split) ++ annRows ∧
        db'.imat_label_map = db.imat_label_map ∧
        ((getOpt fs "info" = none ∧ getOpt fs "license" = none ∧
          db'.imat_info = db.imat_info ∧ db'.imat_license = db.imat_license) ∨
         (((getOpt fs "info").isSome ∨ (getOpt fs "license").isSome) ∧
          db'.imat_info = db.imat_info.filter (fun r => ¬ r.split = split) ++
            infoRowsOf split (getOpt fs "info") ∧
          db'.imat_license = db.imat_license.filter (fun r => ¬ r.split = split) ++
            licenseRowsOf split (getOpt fs "license"))) := by
  cases file with
  | missing name => simp [load_imat_split, load_imat_split_info_and_license] at h
  | malformed name => simp [load_imat_split, load_imat_split_info_and_license] at h
  | wellFormed name doc =>
    cases doc with
    | null => simp [load_imat_split, load_imat_split_info_and_license, pyGet] at h
    | bool b => simp [load_imat_split, load_imat_split_info_and_license, pyGet] at h
    | num n => simp [load_imat_split, load_imat_split_info_and_license, pyGet] at h
    | str s => simp [load_imat_split, load_imat_split_info_and_license, pyGet] at h
    | arr xs => simp [load_imat_split, load_imat_split_info_and_license, pyGet] at h
    | obj fs =>
      refine ⟨name, fs, rfl, ?_⟩
      unfold load_imat_split at h
      cases hil : load_imat_split_info_and_license (.wellFormed name (.obj fs)) split db with
      | error e => rw [hil] at h; cases h
      | ok db1 =>
        rw [hil] at h
        dsimp only at h
        cases him : load_imat_split_images (.wellFormed name (.obj fs)) split 20000 db1 with
        | error e => rw [him] at h; cases h
        | ok db2 =>
          rw [him] at h
          dsimp only at h
          obtain ⟨imgRows, hmapI, himsI, hinfoI, hlicI, hannI, hlmI⟩ :=
            load_images_ok_inv name (.obj fs) split 20000 db1 db2 him
          obtain ⟨annRows, hmapA, hannsA, hinfoA, hlicA, himsA, hlmA⟩ :=
            load_anns_ok_inv name (.obj fs) split 20000 db2 db' h
          by_cases hcase : getOpt fs "info" = none ∧ getOpt fs "license" = none
          · have hskip := load_il_skip name fs split db hcase.1 hcase.2
            rw [hskip] at hil
            cases hil
            refine ⟨imgRows, annRows, hmapI, hmapA, ?_, ?_, ?_,
              Or.inl ⟨hcase.1, hcase.2, ?_, ?_⟩⟩
            · rw [himsA, himsI]
              simp [DB.print]
            · rw [hannsA, hannI]
              simp [DB.print]
            · rw [hlmA, hlmI]
              simp [DB.print]
            · rw [hinfoA, hinfoI]
              simp [DB.print]
            · rw [hlicA, hlicI]
              simp [DB.print]
          · have hpresent : (getOpt fs "info").isSome ∨ (getOpt fs "license").isSome := by
              rcases not_and_or.mp hcase with hni | hnl
              · exact Or.inl (Option.isSome_iff_ne_none.mpr hni)
              · exact Or.inr (Option.isSome_iff_ne_none.mpr hnl)
            obtain ⟨db1', hload1, hinfo1, hlic1, hims1, hanns1, hlm1⟩ :=
              load_il_present name fs split db hpresent
            rw [hload1] at hil
            cases hil
            refine ⟨imgRows, annRows, hmapI, hmapA, ?_, ?_, ?_,
              Or.inr ⟨hpresent, ?_, ?_⟩⟩
            · rw [himsA, himsI, hims1]
            · rw [hannsA, hannI, hanns1]
            · rw [hlmA, hlmI, hlm1]
            · rw [hinfoA, hinfoI, hinfo1]
            · rw [hlicA, hlicI, hlic1]

/-! ## Claim C1 -/

/-- C1: for every split document, running `load_imat_split` twice in
succession with the same document and split name leaves the store with
exactly the same final row set — the same rows in the images,
annotations, info, license (and label-map) relations — as running it
once. -/
theorem claim_C1_idempotent_rerun (file : JsonFile) (split : String)
    (db db1 db2 : DB)
    (h1 : load_imat_split file split db = .ok db1)
    (h2 : load_imat_split file split db1 = .ok db2) :
    db2.imat_images = db1.imat_images ∧
    db2.imat_annotations = db1.imat_annotations ∧
    db2.imat_info = db1.imat_info ∧
    db2.imat_license = db1.imat_license ∧
    db2.imat_label_map = db1.imat_label_map := by
  obtain ⟨name, fs, hfile, imgRows, annRows, hmapI, hmapA, hims1, hanns1, hlm1, hil1⟩ :=
    load_split_ok_inv file split db db1 h1
  obtain ⟨name2, fs2, hfile2, imgRows2, annRows2, hmapI2, hmapA2, hims2, hanns2, hlm2, hil2⟩ :=
    load_split_ok_inv file split db1 db2 h2
  rw [hfile] at hfile2
  cases hfile2
  rw [hmapI] at hmapI2
  cases hmapI2
  rw [hmapA] at hmapA2
  cases hmapA2
  have hallI : ∀ r ∈ imgRows, r.split = split := by
    intro r hr
    obtain ⟨a, _, ha⟩ := mapE_mem hmapI r hr
    exact imgRowE_split ha
  have hallA : ∀ r ∈ annRows, r.split = split := by
    intro r hr
    obtain ⟨a, _, ha⟩ := mapE_mem hmapA r hr
    exact annRowE_split ha
  have hI0 := filter_not_key_nil ImageRow.split split imgRows hallI
  have hA0 := filter_not_key_nil AnnRow.split split annRows hallA
  have himgs : db2.imat_images = db1.imat_images := by
    rw [hims2, hims1, List.filter_append, filter_idem, hI0]
    simp
  have hanns : db2.imat_annotations = db1.imat_annotations := by
    rw [hanns2, hanns1, List.filter_append, filter_idem, hA0]
    simp
  have hinfolic : db2.imat_info = db1.imat_info ∧ db2.imat_license = db1.imat_license := by
    rcases hil1 with ⟨hn1, hl1, hi1, hc1⟩ | ⟨hp1, hi1, hc1⟩
    · rcases hil2 with ⟨_, _, hi2, hc2⟩ | ⟨hp2, hi2, hc2⟩
      · exact ⟨hi2, hc2⟩
      · rcases hp2 with hp2 | hp2
        · rw [hn1] at hp2
          simp at hp2
        · rw [hl1] at hp2
          simp at hp2
    · rcases hil2 with ⟨hn2, hl2, hi2, hc2⟩ | ⟨hp2, hi2, hc2⟩
      · rcases hp1 with hp1 | hp1
        · rw [hn2] at hp1
          simp at hp1
        · rw [hl2] at hp1
          simp at hp1
      · have hIinfo : ∀ r ∈ infoRowsOf split (getOpt fs "info"), r.split = split := by
          cases getOpt fs "info" <;> simp [infoRowsOf]
        have hIlic : ∀ r ∈ licenseRowsOf split (getOpt fs "license"), r.split = split := by
          cases getOpt fs "license" <;> simp [licenseRowsOf]
        constructor
        · rw [hi2, hi1, List.filter_append, filter_idem,
            filter_not_key_nil InfoRow.split split _ hIinfo]
          simp
        · rw [hc2, hc1, List.filter_append, filter_idem,
            filter_not_key_nil LicenseRow.split split _ hIlic]
          simp
  exact ⟨himgs, hanns, hinfolic.1, hinfolic.2, hlm2⟩

theorem claim_C1_witness :
    load_imat_split C1file "train" emptyDB = .ok C1db1 ∧
    load_imat_split C1file "train" C1db1 = .ok C1db2 ∧
    (C1db2.imat_images = C1db1.imat_images ∧
     C1db2.imat_annotations = C1db1.imat_annotations ∧
     C1db2.imat_info = C1db1.imat_info ∧
     C1db2.imat_license = C1db1.imat_license ∧
     C1db2.imat_label_map = C1db1.imat_label_map) :=
  ⟨rfl, rfl, claim_C1_idempotent_rerun C1file "train" emptyDB C1db1 C1db2 rfl rfl⟩

/-! ## Claim C2 -/

/-- C2: for every array of well-formed elements the split loader writes
exactly N rows to the target relation — for every batch size, including
when N is not a multiple of it: the final flush of the partially filled
buffer always runs at end of stream, so no trailing rows are dropped. -/
theorem claim_C2_batch_completeness (name : String) (doc : JVal) (split : String)
    (bs : Nat) (db : DB) (imgRows : List ImageRow) (annRows : List AnnRow)
    (hImg : mapE (imgRowE split) (streamItems doc "images") = .ok imgRows)
    (hAnn : mapE (annRowE split) (streamItems doc "annotations") = .ok annRows) :
    ∃ db1 db2, load_imat_split_images (.wellFormed name doc) split bs db = .ok db1 ∧
      (db1.imat_images.filter (fun r => r.split = split)).length =
        (streamItems doc "images").length ∧
      load_imat_split_annotations (.wellFormed name doc) split bs db1 = .ok db2 ∧
      (db2.imat_annotations.filter (fun r => r.split = split)).length =
        (streamItems doc "annotations").length := by
  have hallI : ∀ r ∈ imgRows, r.split = split := by
    intro r hr
    obtain ⟨a, _, ha⟩ := mapE_mem hImg r hr
    exact imgRowE_split ha
  have hallA : ∀ r ∈ annRows, r.split = split := by
    intro r hr
    obtain ⟨a, _, ha⟩ := mapE_mem hAnn r hr
    exact annRowE_split ha
  obtain ⟨db1, hload1, hims, _, _, _, _⟩ :=
    load_images_wf_ok name doc split bs db imgRows hImg
  obtain ⟨db2, hload2, hanns, _, _, _, _⟩ :=
    load_anns_wf_ok name doc split bs db1 annRows hAnn
  refine ⟨db1, db2, hload1, ?_, hload2, ?_⟩
  · rw [hims, List.filter_append, filter_key_of_filter_not ImageRow.split split,
      filter_key_all ImageRow.split split imgRows hallI, List.nil_append,
      mapE_length hImg]
  · rw [hanns, List.filter_append, filter_key_of_filter_not AnnRow.split split,
      filter_key_all AnnRow.split split annRows hallA, List.nil_append,
      mapE_length hAnn]

theorem claim_C2_witness :
    mapE (imgRowE "train") (streamItems C2doc "images") = .ok C2imgRows ∧
    mapE (annRowE "train") (streamItems C2doc "annotations") = .ok C2annRows ∧
    (∃ db1 db2, load_imat_split_images (.wellFormed "train.json" C2doc) "train" 3 emptyDB = .ok db1 ∧
      (db1.imat_images.filter (fun r => r.split = "train")).length =
        (streamItems C2doc "images").length ∧
      load_imat_split_annotations (.wellFormed "train.json" C2doc) "train" 3 db1 = .ok db2 ∧
      (db2.imat_annotations.filter (fun r => r.split = "train")).length =
        (streamItems C2doc "annotations").length) :=
  ⟨rfl, rfl, claim_C2_batch_completeness "train.json" C2doc "train" 3 emptyDB
    C2imgRows C2annRows rfl rfl⟩

/-! ## Claim C7 -/

/-- C7: the row buffer flushes as soon as the accumulated count reaches
the threshold, before accepting more rows; hence after each processed
element of any input stream the buffer of either loader holds strictly
fewer than `batch_size` rows (for any positive `batch_size`), so it
never exceeds `batch_size` at any point. -/
theorem claim_C7_buffer_bound (split : String) (bs : Nat) (hbs : 1 ≤ bs)
    (db : DB) (elems : List JVal) :
    (∀ st', runLoop (imgRowE split) insertImages bs elems
        (⟨db, [], 0⟩ : Loop ImageRow) = .ok st' → st'.buffer.length < bs) ∧
    (∀ st', runLoop (annRowE split) insertAnns bs elems
        (⟨db, [], 0⟩ : Loop AnnRow) = .ok st' → st'.buffer.length < bs) := by
  constructor
  · intro st' h
    exact runLoop_buffer_lt (imgRowE split) insertImages bs hbs (by simpa using hbs) h
  · intro st' h
    exact runLoop_buffer_lt (annRowE split) insertAnns bs hbs (by simpa using hbs) h

theorem claim_C7_witness : 1 ≤ 2 ∧ C7st.buffer.length < 2 :=
  ⟨by decide, (claim_C7_buffer_bound "train" 2 (by decide) emptyDB C7elems).1 C7st rfl⟩

/-! ## Claim C9 -/

/-- C9: when both `"info"` and `"license"` are absent from the split
document, `load_imat_split_info_and_license` performs no database
modification at all: the result is the input store with only the skip
notice printed, so pre-existing `SplitInfo`/`SplitLicense` rows (for
this or any split) survive unchanged. -/
theorem claim_C9_skip_frame (name : String) (fs : List (String × JVal))
    (split : String) (db : DB)
    (hinfo : lookupField fs "info" = none)
    (hlic : lookupField fs "license" = none) :
    load_imat_split_info_and_license (.wellFormed name (.obj fs)) split db =
      .ok (db.print ("[SKIP] " ++ split ++ ": no info/license in " ++ name)) :=
  load_il_skip name fs split db (by simp [getOpt, hinfo]) (by simp [getOpt, hlic])

theorem claim_C9_witness :
    lookupField C9fs "info" = none ∧
    lookupField C9fs "license" = none ∧
    load_imat_split_info_and_license (.wellFormed "validation.json" (.obj C9fs))
        "validation" C9db =
      .ok (C9db.print "[SKIP] validation: no info/license in validation.json") :=
  ⟨rfl, rfl, claim_C9_skip_frame "validation.json" C9fs "validation" C9db rfl rfl⟩

/-! ## Claim C6 -/

/-- C6 counterexample: on a store still holding a `SplitInfo` row for
the split, the skip path completes and prints the notice, yet the
relation does NOT end up with zero rows for that split — the claim's
"results in zero rows" fails at this input. -/
theorem claim_C6_counterexample :
    load_imat_split_info_and_license (.wellFormed "validation.json" (.obj C6fs))
        "validation" C6db = .ok C6db1 ∧
    C6db1.output = C6db.output ++ ["[SKIP] validation: no info/license in validation.json"] ∧
    C6db1.imat_info.filter (fun r => r.split = "validation") ≠ [] :=
  ⟨rfl, rfl, by decide⟩

/-- C6 (amended): with both keys absent the info/license step completes
without error and prints the skip notice, leaving the `SplitInfo` and
`SplitLicense` relations unchanged — in particular, zero rows for the
split whenever the store had none (e.g. on a fresh store). -/
theorem claim_C6_amended_skip (name : String) (fs : List (String × JVal))
    (split : String) (db : DB)
    (hinfo : lookupField fs "info" = none)
    (hlic : lookupField fs "license" = none) :
    ∃ db', load_imat_split_info_and_license (.wellFormed name (.obj fs)) split db = .ok db' ∧
      db'.output = db.output ++ ["[SKIP] " ++ split ++ ": no info/license in " ++ name] ∧
      db'.imat_info = db.imat_info ∧ db'.imat_license = db.imat_license ∧
      (db.imat_info.filter (fun r => r.split = split) = [] →
        db'.imat_info.filter (fun r => r.split = split) = []) ∧
      (db.imat_license.filter (fun r => r.split = split) = [] →
        db'.imat_license.filter (fun r => r.split = split) = []) :=
  ⟨_, load_il_skip name fs split db (by simp [getOpt, hinfo]) (by simp [getOpt, hlic]),
    rfl, rfl, rfl, fun h => h, fun h => h⟩

theorem claim_C6_witness :
    lookupField C6fs "info" = none ∧
    lookupField C6fs "license" = none ∧
    (∃ db', load_imat_split_info_and_license (.wellFormed "validation.json" (.obj C6fs))
        "validation" emptyDB = .ok db' ∧
      db'.output = emptyDB.output ++ ["[SKIP] " ++ "validation" ++ ": no info/license in " ++ "validation.json"] ∧
      db'.imat_info = emptyDB.imat_info ∧ db'.imat_license = emptyDB.imat_license ∧
      (emptyDB.imat_info.filter (fun r => r.split = "validation") = [] →
        db'.imat_info.filter (fun r => r.split = "validation") = []) ∧
      (emptyDB.imat_license.filter (fun r => r.split = "validation") = [] →
        db'.imat_license.filter (fun r => r.split = "validation") = [])) :=
  ⟨rfl, rfl, claim_C6_amended_skip "validation.json" C6fs "validation" emptyDB rfl rfl⟩

/-! ## Claim C4 -/

/-- C4 counterexample: a completed `load_imat_split` of split `"train"`
whose document binds `"info"` to JSON `null` and lacks `"license"` —
`data.get` returns `None` for both — leaves the pre-existing
`SplitInfo` and `SplitLicense` rows of that split in place: the [SKIP]
path runs, so the deletes of all four relations do NOT run first
unconditionally; they are skipped for info/license on this input,
falsifying the claim as stated. -/
theorem claim_C4_counterexample :
    load_imat_split C4file "train" C4db = .ok C4db1 ∧
    C4db1.imat_info.filter (fun r => r.split = "train") = [⟨"train", "stale-info"⟩] ∧
    C4db1.imat_license.filter (fun r => r.split = "train") = [⟨"train", "stale-license"⟩] :=
  ⟨rfl, by decide, by decide⟩

/-- C4 (amended): each load step clears only its own relations for the
split, immediately before its own inserts, rather than all four deletes
running first: a successful `load_imat_split` replaces the split's
images rows and annotations rows; the info/license deletes run — and
the split's rows are replaced — only when at least one of the two keys
is present with a non-`null` value (a key bound to JSON `null` reads as
Python `None`, indistinguishable from absence), and otherwise those two
relations are untouched. -/
theorem claim_C4_amended_per_step_clear (file : JsonFile) (split : String)
    (db db' : DB) (h : load_imat_split file split db = .ok db') :
    ∃ name fs, file = .wellFormed name (.obj fs) ∧
      ∃ imgRows annRows,
        mapE (imgRowE split) (streamItems (.obj fs) "images") = .ok imgRows ∧
        mapE (annRowE split) (streamItems (.obj fs) "annotations") = .ok annRows ∧
        db'.imat_images = db.imat_images.filter (fun r => ¬ r.split = split) ++ imgRows ∧
        db'.imat_annotations =
          db.imat_annotations.filter (fun r => ¬ r.split = split) ++ annRows ∧
        db'.imat_label_map = db.imat_label_map ∧
        ((getOpt fs "info" = none ∧ getOpt fs "license" = none ∧
          db'.imat_info = db.imat_info ∧ db'.imat_license = db.imat_license) ∨
         (((getOpt fs "info").isSome ∨ (getOpt fs "license").isSome) ∧
          db'.imat_info = db.imat_info.filter (fun r => ¬ r.split = split) ++
            infoRowsOf split (getOpt fs "info") ∧
          db'.imat_license = db.imat_license.filter (fun r => ¬ r.split = split) ++
            licenseRowsOf split (getOpt fs "license"))) :=
  load_split_ok_inv file split db db' h

theorem claim_C4_witness :
    load_imat_split C4file "train" C4db = .ok C4db1 ∧
    (∃ name fs, C4file = .wellFormed name (.obj fs) ∧
      ∃ imgRows annRows,
        mapE (imgRowE "train") (streamItems (.obj fs) "images") = .ok imgRows ∧
        mapE (annRowE "train") (streamItems (.obj fs) "annotations") = .ok annRows ∧
        C4db1.imat_images = C4db.imat_images.filter (fun r => ¬ r.split = "train") ++ imgRows ∧
        C4db1.imat_annotations =
          C4db.imat_annotations.filter (fun r => ¬ r.split = "train") ++ annRows ∧
        C4db1.imat_label_map = C4db.imat_label_map ∧
        ((getOpt fs "info" = none ∧ getOpt fs "license" = none ∧
          C4db1.imat_info = C4db.imat_info ∧ C4db1.imat_license = C4db.imat_license) ∨
         (((getOpt fs "info").isSome ∨ (getOpt fs "license").isSome) ∧
          C4db1.imat_info = C4db.imat_info.filter (fun r => ¬ r.split = "train") ++
            infoRowsOf "train" (getOpt fs "info") ∧
          C4db1.imat_license = C4db.imat_license.filter (fun r => ¬ r.split = "train") ++
            licenseRowsOf "train" (getOpt fs "license")))) :=
  ⟨rfl, claim_C4_amended_per_step_clear C4file "train" C4db C4db1 rfl⟩

/-! ## Claim C10 -/

/-- C10: `load_label_map` raises when the spreadsheet is missing or
unreadable, and in both cases returns the store exactly as it was — in
particular the label-map relation is unchanged; the `TRUNCATE` happens
only on the path where the file exists and has been fully read. -/
theorem claim_C10_label_map_error_frame (name : String) (db : DB) :
    load_label_map (.missing name) db = .error (.fileNotFoundError name, db) ∧
    load_label_map (.unreadable name) db = .error (.excelReadError name, db) :=
  ⟨rfl, rfl⟩

/-! ## Claim C3 -/

/-- C3 counterexample: two different offending raw elements make the
images loader fail with literally identical errors (`KeyError('url')`
and the same store state), so the raised error does not identify the
offending raw element — the claim's "a RecordError that identifies the
offending raw element" fails. -/
theorem claim_C3_counterexample :
    load_imat_split_images (.wellFormed "train.json" (.obj [("images", .arr [C3elemA])]))
        "train" 20000 emptyDB = .error (.keyError "url", emptyDB) ∧
    load_imat_split_images (.wellFormed "train.json" (.obj [("images", .arr [C3elemB])]))
        "train" 20000 emptyDB = .error (.keyError "url", emptyDB) ∧
    C3elemA ≠ C3elemB := by
  refine ⟨rfl, rfl, ?_⟩
  intro h
  simp [C3elemA, C3elemB] at h

/-- C3 (amended): a streamed images element missing `"url"` or
`"imageId"`, or with a non-coercible `"imageId"`, makes the whole
partition load fail with the underlying `KeyError`/`ValueError` of the
first malformed element — which names the missing key or bad literal,
though not always the raw element itself; no element is skipped, and no
rows beyond those of the elements before the malformed one are loaded:
the images relation holds a prefix of their rows and the annotations
step never runs. -/
theorem claim_C3_amended_fail_fast (name : String) (doc : JVal) (split : String)
    (db dbIL : DB) (good : List JVal) (bad : JVal) (rest : List JVal)
    (rows : List ImageRow) (err : PyErr)
    (hIL : load_imat_split_info_and_license (.wellFormed name doc) split db = .ok dbIL)
    (hstream : streamItems doc "images" = good ++ bad :: rest)
    (hgood : mapE (imgRowE split) good = .ok rows)
    (hbad : imgRowE split bad = .error err) :
    ∃ db', load_imat_split (.wellFormed name doc) split db = .error (err, db') ∧
      (∃ buf, db'.imat_images ++ buf =
        dbIL.imat_images.filter (fun r => ¬ r.split = split) ++ rows) ∧
      db'.imat_annotations = dbIL.imat_annotations ∧
      db'.imat_info = dbIL.imat_info ∧
      db'.imat_license = dbIL.imat_license := by
  obtain ⟨db', hload, hbuf, hinfo, hlic, hanns, hlm⟩ :=
    load_images_wf_error name doc split 20000 dbIL good bad rest rows err
      hstream hgood hbad
  refine ⟨db', ?_, hbuf, hanns, hinfo, hlic⟩
  unfold load_imat_split
  rw [hIL]
  dsimp only
  rw [hload]

theorem claim_C3_witness :
    load_imat_split_info_and_license (.wellFormed "train.json" C3doc) "train" emptyDB
      = .ok C3dbIL ∧
    streamItems C3doc "images" =
      [.obj [("imageId", .str "1"), ("url", .str "u1")]] ++
        (.obj [("imageId", .str "2")]) :: [.obj [("imageId", .str "3"), ("url", .str "u3")]] ∧
    mapE (imgRowE "train") [.obj [("imageId", .str "1"), ("url", .str "u1")]] = .ok C3rows ∧
    imgRowE "train" (.obj [("imageId", .str "2")]) = .error (.keyError "url") ∧
    (∃ db', load_imat_split (.wellFormed "train.json" C3doc) "train" emptyDB
        = .error (.keyError "url", db') ∧
      (∃ buf, db'.imat_images ++ buf =
        C3dbIL.imat_images.filter (fun r => ¬ r.split = "train") ++ C3rows) ∧
      db'.imat_annotations = C3dbIL.imat_annotations ∧
      db'.imat_info = C3dbIL.imat_info ∧
      db'.imat_license = C3dbIL.imat_license) :=
  ⟨rfl, rfl, rfl, rfl,
    claim_C3_amended_fail_fast "train.json" C3doc "train" emptyDB C3dbIL
      [.obj [("imageId", .str "1"), ("url", .str "u1")]]
      (.obj [("imageId", .str "2")])
      [.obj [("imageId", .str "3"), ("url", .str "u3")]]
      C3rows (.keyError "url") rfl rfl rfl rfl⟩

/-! ## Claim C8: the CSV round-trip -/

theorem csv_unq_content (done : List String) :
    ∀ (cs acc : List Char),
      (∀ c ∈ cs, ¬(c = ',' ∨ c = '\r' ∨ c = '\n')) →
      List.foldl csvStep (.unq done acc) cs = .unq done (acc ++ cs) := by
  intro cs
  induction cs with
  | nil =>
    intro acc _
    simp
  | cons c rest ih =>
    intro acc h
    have hc := h c (List.mem_cons_self c rest)
    push_neg at hc
    have hstep : csvStep (.unq done acc) c = .unq done (acc ++ [c]) := by
      simp [csvStep, hc.1, hc.2.1, hc.2.2]
    rw [List.foldl_cons, hstep, ih (acc ++ [c]) (fun x hx => h x (List.mem_cons_of_mem _ hx))]
    simp

theorem csv_quo_content (done : List String) :
    ∀ (cs acc : List Char),
      List.foldl csvStep (.quo done acc) (csvQuoteChars cs) = .quo done (acc ++ cs) := by
  intro cs
  induction cs with
  | nil =>
    intro acc
    simp [csvQuoteChars]
  | cons c rest ih =>
    intro acc
    by_cases hc : c = '"'
    · subst hc
      have h1 : csvQuoteChars ('"' :: rest) = '"' :: '"' :: csvQuoteChars rest := by
        simp [csvQuoteChars]
      rw [h1, List.foldl_cons, List.foldl_cons]
      have h2 : csvStep (.quo done acc) '"' = .quoQ done acc := by
        simp [csvStep]
      have h3 : csvStep (.quoQ done acc) '"' = .quo done (acc ++ ['"']) := by
        simp [csvStep]
      rw [h2, h3, ih (acc ++ ['"'])]
      simp
    · have h1 : csvQuoteChars (c :: rest) = c :: csvQuoteChars rest := by
        simp [csvQuoteChars, hc]
      rw [h1, List.foldl_cons]
      have h2 : csvStep (.quo done acc) c = .quo done (acc ++ [c]) := by
        simp [csvStep, hc]
      rw [h2, ih (acc ++ [c])]
      simp

theorem csv_needsQuote_all (cs : List Char) (h : csvNeedsQuote cs = false) :
    ∀ c ∈ cs, ¬(c = ',' ∨ c = '"' ∨ c = '\r' ∨ c = '\n') := by
  intro c hc hor
  simp only [csvNeedsQuote, List.any_eq_false] at h
  apply h c hc
  rcases hor with h3 | h3 | h3 | h3 <;> simp [h3]

theorem string_mk_data (f : String) : (⟨f.data⟩ : String) = f := rfl

theorem csv_field_sep (f : String) (done : List String) (c : Char) (rest : List Char)
    (hc : c = ',' ∨ c = '\r') :
    List.foldl csvStep (.fieldStart done) (csvEncField f.data ++ c :: rest) =
      List.foldl csvStep
        (if c = ',' then CsvSt.fieldStart (done ++ [f]) else CsvSt.gotCR (done ++ [f]))
        rest := by
  have hcq : c ≠ '"' := by
    rcases hc with hc | hc <;> subst hc <;> decide
  by_cases hq : csvNeedsQuote f.data
  · have henc : csvEncField f.data = '"' :: (csvQuoteChars f.data ++ ['"']) := by
      simp [csvEncField, hq]
    rw [henc]
    have h1 : csvStep (.fieldStart done) '"' = .quo done [] := by
      simp [csvStep]
    rw [List.cons_append, List.foldl_cons, h1, List.append_assoc, List.foldl_append,
      csv_quo_content done f.data []]
    have h2 : csvStep (.quo done f.data) '"' = .quoQ done f.data := by
      simp [csvStep]
    rw [List.nil_append, List.singleton_append, List.foldl_cons, h2, List.foldl_cons]
    rcases hc with hc | hc <;> subst hc
    · have h3 : csvStep (.quoQ done f.data) ',' = .fieldStart (done ++ [f]) := by
        simp [csvStep, string_mk_data]
      rw [h3, if_pos rfl]
    · have h3 : csvStep (.quoQ done f.data) '\r' = .gotCR (done ++ [f]) := by
        simp [csvStep, string_mk_data]
      rw [h3, if_neg (by decide)]
  · have hall := csv_needsQuote_all f.data (by simpa using hq)
    have henc : csvEncField f.data = f.data := by
      simp [csvEncField, hq]
    rw [henc]
    cases hfd : f.data with
    | nil =>
      have hf : f = "" := congrArg String.mk hfd
      rw [List.nil_append, List.foldl_cons]
      rcases hc with hc | hc <;> subst hc
      · have h1 : csvStep (.fieldStart done) ',' = .fieldStart (done ++ [""]) := by
          simp [csvStep]
        rw [h1, if_pos rfl, hf]
      · have h1 : csvStep (.fieldStart done) '\r' = .gotCR (done ++ [""]) := by
          simp [csvStep]
        rw [h1, if_neg (by decide), hf]
    | cons c0 cs0 =>
      rw [hfd] at hall
      have hc0 := hall c0 (List.mem_cons_self c0 cs0)
      have hc0a : ¬ c0 = ',' := fun hx => hc0 (Or.inl hx)
      have hc0b : ¬ c0 = '"' := fun hx => hc0 (Or.inr (Or.inl hx))
      have hc0c : ¬ c0 = '\r' := fun hx => hc0 (Or.inr (Or.inr (Or.inl hx)))
      have hc0d : ¬ c0 = '\n' := fun hx => hc0 (Or.inr (Or.inr (Or.inr hx)))
      have h1 : csvStep (.fieldStart done) c0 = .unq done [c0] := by
        simp [csvStep, hc0a, hc0b, hc0c, hc0d]
      rw [List.cons_append, List.foldl_cons, h1, List.foldl_append,
        csv_unq_content done cs0 [c0]
          (fun x hx hor => hall x (List.mem_cons_of_mem _ hx)
            (hor.elim Or.inl (fun hor2 =>
              hor2.elim (fun hcr => Or.inr (Or.inr (Or.inl hcr)))
                (fun hlf => Or.inr (Or.inr (Or.inr hlf))))))]
      have hmk : (⟨c0 :: cs0⟩ : String) = f := by
        rw [← hfd]
      rw [List.foldl_cons]
      rcases hc with hc | hc <;> subst hc
      · have h2 : csvStep (.unq done ([c0] ++ cs0)) ',' = .fieldStart (done ++ [f]) := by
          simp [csvStep, hmk]
        rw [h2, if_pos rfl]
      · have h2 : csvStep (.unq done ([c0] ++ cs0)) '\r' = .gotCR (done ++ [f]) := by
          simp [csvStep, hmk]
        rw [h2, if_neg (by decide)]

theorem csv_fields_chain :
    ∀ (rest : List String) (f : String) (done : List String),
      List.foldl csvStep (.fieldStart done)
        (csvJoin ((f :: rest).map (fun g => csvEncField g.data)) ++ ['\r', '\n']) =
      .accept (done ++ f :: rest) := by
  intro rest
  induction rest with
  | nil =>
    intro f done
    have hjoin : csvJoin ([f].map (fun g => csvEncField g.data)) = csvEncField f.data := by
      simp [csvJoin]
    rw [hjoin]
    have : csvEncField f.data ++ ['\r', '\n'] = csvEncField f.data ++ '\r' :: ['\n'] := rfl
    rw [this, csv_field_sep f done '\r' ['\n'] (Or.inr rfl), if_neg (by decide)]
    simp [csvStep]
  | cons g more ih =>
    intro f done
    have hjoin : csvJoin ((f :: g :: more).map (fun x => csvEncField x.data)) =
        csvEncField f.data ++ ',' :: csvJoin ((g :: more).map (fun x => csvEncField x.data)) := by
      simp [csvJoin]
    rw [hjoin, List.append_assoc, List.cons_append,
      csv_field_sep f done ',' _ (Or.inl rfl), if_pos rfl]
    have := ih g (done ++ [f])
    rw [this]
    simp

theorem csv_lineStart_agree (c : Char) (hc : c ≠ '\r') :
    csvStep .lineStart c = csvStep (.fieldStart []) c := by
  by_cases h1 : c = '"'
  · simp [csvStep, h1]
  · by_cases h2 : c = ','
    · simp [csvStep, h1, h2]
    · by_cases h3 : c = '\n'
      · simp [csvStep, h1, h2, h3, hc]
      · simp [csvStep, h1, h2, h3, hc]

theorem csv_enc_head_ne_cr (cs : List Char) (e : Char) (es : List Char)
    (h : csvEncField cs = e :: es) : e ≠ '\r' := by
  by_cases hq : csvNeedsQuote cs
  · simp only [csvEncField, hq, if_true] at h
    cases h
    decide
  · simp only [csvEncField, hq, Bool.false_eq_true, if_false] at h
    have hall := csv_needsQuote_all cs (by simpa using hq)
    have : e ∈ cs := by
      rw [h]
      exact List.mem_cons_self e es
    exact fun hcr => hall e this (Or.inr (Or.inr (Or.inl hcr)))

/-- C8: every row tuple handed to the bulk writer round-trips through
the delimited text format: fields containing commas, quote characters,
or CR/LF are quoted and escaped by `csvWriteRow` exactly so that
decoding the emitted line recovers the original field values. -/
theorem claim_C8_csv_roundtrip (fields : List String) :
    csvParseRow (csvWriteRow fields) = some fields := by
  cases fields with
  | nil => rfl
  | cons f rest =>
    cases rest with
    | nil =>
      by_cases hf : f.data.isEmpty
      · have hfd : f.data = [] := List.isEmpty_iff.mp hf
        have hfe : f = "" := congrArg String.mk hfd
        subst hfe
        rfl
      · have hwrite : csvWriteRow [f] = ⟨csvEncField f.data ++ ['\r', '\n']⟩ := by
          simp [csvWriteRow, hf]
        rw [hwrite]
        have hchain := csv_fields_chain [] f []
        have hjoin : csvJoin ([f].map (fun g => csvEncField g.data)) = csvEncField f.data := by
          simp [csvJoin]
        rw [hjoin] at hchain
        obtain ⟨c0, tail, hdecomp, hc0⟩ :
            ∃ c0 tail, csvEncField f.data ++ ['\r', '\n'] = c0 :: tail ∧ c0 ≠ '\r' := by
          cases henc : csvEncField f.data with
          | nil =>
            exfalso
            have hd : f.data = [] := by
              by_cases hq : csvNeedsQuote f.data
              · simp [csvEncField, hq] at henc
              · simpa [csvEncField, hq] using henc
            exact hf (List.isEmpty_iff.mpr hd)
          | cons e es =>
            exact ⟨e, es ++ ['\r', '\n'], by simp [henc],
              csv_enc_head_ne_cr f.data e es henc⟩
        have hacc : List.foldl csvStep .lineStart (csvEncField f.data ++ ['\r', '\n'])
            = .accept [f] := by
          rw [hdecomp, List.foldl_cons, csv_lineStart_agree c0 hc0, ← List.foldl_cons,
            ← hdecomp, hchain]
          rfl
        dsimp only [csvParseRow]
        rw [hacc]
    | cons g more =>
      have hwrite : csvWriteRow (f :: g :: more) =
          ⟨csvJoin ((f :: g :: more).map (fun x => csvEncField x.data)) ++ ['\r', '\n']⟩ := by
        simp [csvWriteRow]
      rw [hwrite]
      have hchain := csv_fields_chain (g :: more) f []
      have hjoin : csvJoin ((f :: g :: more).map (fun x => csvEncField x.data)) =
          csvEncField f.data ++ ',' :: csvJoin ((g :: more).map (fun x => csvEncField x.data)) := by
        simp [csvJoin]
      obtain ⟨c0, tail, hdecomp, hc0⟩ :
          ∃ c0 tail, csvJoin ((f :: g :: more).map (fun x => csvEncField x.data)) ++ ['\r', '\n']
            = c0 :: tail ∧ c0 ≠ '\r' := by
        cases henc : csvEncField f.data with
        | nil =>
          refine ⟨',', csvJoin ((g :: more).map (fun x => csvEncField x.data)) ++ ['\r', '\n'],
            ?_, by decide⟩
          simp [hjoin, henc, csvJoin]
        | cons e es =>
          refine ⟨e, (es ++ ',' :: csvJoin ((g :: more).map (fun x => csvEncField x.data)))
            ++ ['\r', '\n'], ?_, csv_enc_head_ne_cr f.data e es henc⟩
          simp [hjoin, henc, csvJoin]
      have hacc : List.foldl csvStep .lineStart
          (csvJoin ((f :: g :: more).map (fun x => csvEncField x.data)) ++ ['\r', '\n'])
          = .accept (f :: g :: more) := by
        rw [hdecomp, List.foldl_cons, csv_lineStart_agree c0 hc0, ← List.foldl_cons,
          ← hdecomp, hchain]
        rfl
      dsimp only [csvParseRow]
      rw [hacc]

/-! ## Claim C5: the `label_ids` round-trip -/

theorem hexVal_hexDigitChar : ∀ n, n < 16 → hexVal? (hexDigitChar n) = some n := by
  decide

theorem json_escChar_step (done : List String) (acc : List Char) (c : Char) :
    List.foldl jsonStep (.inStr done acc) (jsonEscChar c) = .inStr done (acc ++ [c]) := by
  by_cases h1 : c = '"'
  · subst h1
    simp [jsonEscChar, jsonStep]
  · by_cases h2 : c = '\\'
    · subst h2
      simp [jsonEscChar, jsonStep]
    · by_cases h3 : c = '\n'
      · subst h3
        simp [jsonEscChar, jsonStep]
      · by_cases h4 : c = '\r'
        · subst h4
          simp [jsonEscChar, jsonStep]
        · by_cases h5 : c = '\t'
          · subst h5
            simp [jsonEscChar, jsonStep]
          · by_cases h6 : c = Char.ofNat 8
            · subst h6
              simp [jsonEscChar, jsonStep]
            · by_cases h7 : c = Char.ofNat 12
              · subst h7
                simp [jsonEscChar, jsonStep]
              · by_cases h8 : c.toNat < 32
                · have hd16 : c.toNat / 16 < 16 := by omega
                  have hm16 : c.toNat % 16 < 16 := by omega
                  have hh1 := hexVal_hexDigitChar _ hd16
                  have hh2 := hexVal_hexDigitChar _ hm16
                  have henc : jsonEscChar c = ['\\', 'u', '0', '0',
                      hexDigitChar (c.toNat / 16), hexDigitChar (c.toNat % 16)] := by
                    simp [jsonEscChar, h1, h2, h3, h4, h5, h6, h7, h8]
                  rw [henc]
                  simp only [List.foldl_cons, List.foldl_nil]
                  rw [show jsonStep (.inStr done acc) '\\' = .esc done acc from by
                    simp [jsonStep]]
                  rw [show jsonStep (.esc done acc) 'u' = .escU done acc [] from by
                    simp [jsonStep]]
                  rw [show jsonStep (.escU done acc []) '0' = .escU done acc ['0'] from by
                    simp [jsonStep, hexVal?]]
                  rw [show jsonStep (.escU done acc ['0']) '0' = .escU done acc ['0', '0'] from by
                    simp [jsonStep, hexVal?]]
                  rw [show jsonStep (.escU done acc ['0', '0']) (hexDigitChar (c.toNat / 16))
                      = .escU done acc ['0', '0', hexDigitChar (c.toNat / 16)] from by
                    simp [jsonStep, hh1]]
                  rw [show jsonStep (.escU done acc ['0', '0', hexDigitChar (c.toNat / 16)])
                        (hexDigitChar (c.toNat % 16))
                      = .inStr done (acc ++ [Char.ofNat (hexListVal
                          (['0', '0', hexDigitChar (c.toNat / 16)]
                            ++ [hexDigitChar (c.toNat % 16)]))]) from by
                    simp [jsonStep, hh2]]
                  have h0 : hexVal? '0' = some 0 := rfl
                  have hval : hexListVal (['0', '0', hexDigitChar (c.toNat / 16)]
                      ++ [hexDigitChar (c.toNat % 16)]) = c.toNat := by
                    simp [hexListVal, h0, hh1, hh2]
                    omega
                  rw [hval, Char.ofNat_toNat]
                · have henc : jsonEscChar c = [c] := by
                    simp [jsonEscChar, h1, h2, h3, h4, h5, h6, h7, h8]
                  rw [henc]
                  simp [jsonStep, h1, h2]

theorem json_escChars_content (done : List String) :
    ∀ (cs acc rest : List Char),
      List.foldl jsonStep (.inStr done acc) (jsonEscChars cs ++ rest) =
      List.foldl jsonStep (.inStr done (acc ++ cs)) rest := by
  intro cs
  induction cs with
  | nil =>
    intro acc rest
    simp [jsonEscChars]
  | cons c cs ih =>
    intro acc rest
    have hdef : jsonEscChars (c :: cs) = jsonEscChar c ++ jsonEscChars cs := by
      simp [jsonEscChars]
    rw [hdef, List.append_assoc, List.foldl_append, json_escChar_step done acc c,
      ih (acc ++ [c]) rest]
    simp

theorem json_str_elem (done : List String) (s : String) (rest : List Char) :
    List.foldl jsonStep (.inStr done []) (jsonEscChars s.data ++ '"' :: rest) =
    List.foldl jsonStep (.afterStr (done ++ [s])) rest := by
  rw [json_escChars_content done s.data [] ('"' :: rest)]
  simp only [List.nil_append, List.foldl_cons]
  rw [show jsonStep (.inStr done s.data) '"' = .afterStr (done ++ [s]) from by
    simp [jsonStep, string_mk_data]]

theorem jvalListChars_map_str :
    ∀ (rest : List String) (s : String),
      jvalListChars ((s :: rest).map .str) = jsonStrChars s ++ jsonTailChars rest := by
  intro rest
  induction rest with
  | nil =>
    intro s
    simp [jvalListChars, jvalChars, jsonTailChars]
  | cons g more ih =>
    intro s
    rw [show ((s :: g :: more).map JVal.str) = .str s :: .str g :: more.map .str from by
      simp]
    rw [show jvalListChars (.str s :: .str g :: more.map .str)
        = jvalChars (.str s) ++ ',' :: ' ' :: jvalListChars (.str g :: more.map .str) from by
      simp [jvalListChars]]
    rw [show (JVal.str g :: more.map .str) = ((g :: more).map .str) from by simp, ih g]
    simp [jvalChars, jsonTailChars]

theorem json_afterStr_chain :
    ∀ (rest done : List String),
      List.foldl jsonStep (.afterStr done) (jsonTailChars rest ++ [']']) =
      .accept (done ++ rest) := by
  intro rest
  induction rest with
  | nil =>
    intro done
    simp [jsonTailChars, jsonStep]
  | cons s more ih =>
    intro done
    rw [show jsonTailChars (s :: more) = ',' :: ' ' :: (jsonStrChars s ++ jsonTailChars more)
      from rfl]
    simp only [List.cons_append, List.foldl_cons]
    rw [show jsonStep (.afterStr done) ',' = .afterComma done from by simp [jsonStep]]
    rw [show jsonStep (.afterComma done) ' ' = .afterComma done from by simp [jsonStep]]
    rw [show jsonStrChars s = '"' :: (jsonEscChars s.data ++ ['"']) from rfl]
    simp only [List.cons_append, List.foldl_cons, List.append_assoc,
      List.singleton_append, List.nil_append]
    rw [show jsonStep (.afterComma done) '"' = .inStr done [] from by simp [jsonStep]]
    rw [json_str_elem done s (jsonTailChars more ++ [']']), ih (done ++ [s])]
    simp

theorem json_strList_roundtrip (l : List String) :
    parseJsonStrList (pyJsonDumps (.arr (l.map .str))) = some l := by
  have harr : jvalChars (.arr (l.map .str)) = '[' :: (jvalListChars (l.map .str) ++ [']']) := by
    simp [jvalChars]
  dsimp only [parseJsonStrList, pyJsonDumps]
  rw [harr]
  cases l with
  | nil =>
    simp [jvalListChars, jsonStep]
  | cons s rest =>
    rw [jvalListChars_map_str rest s]
    have hacc : List.foldl jsonStep .start
        ('[' :: ((jsonStrChars s ++ jsonTailChars rest) ++ [']'])) = .accept (s :: rest) := by
      rw [List.foldl_cons,
        show jsonStep .start '[' = .elemOrEnd from by simp [jsonStep]]
      rw [show jsonStrChars s = '"' :: (jsonEscChars s.data ++ ['"']) from rfl]
      simp only [List.cons_append, List.foldl_cons, List.append_assoc,
        List.singleton_append, List.nil_append]
      rw [show jsonStep .elemOrEnd '"' = .inStr [] [] from by simp [jsonStep]]
      rw [json_str_elem [] s (jsonTailChars rest ++ [']'])]
      simp only [List.nil_append]
      rw [json_afterStr_chain rest [s]]
      simp
    rw [hacc]

/-- C5: for every annotation element whose `labelId` is an array of
strings, the stored `label_ids` document round-trips — decoding the
text the loader stores recovers exactly the original sequence of label
identifiers in the original order. -/
theorem claim_C5_label_ids_roundtrip (split : String) (el : JVal) (r : AnnRow)
    (l : List String)
    (h : annRowE split el = .ok r)
    (hlv : subscr el "labelId" = .ok (.arr (l.map .str))) :
    parseJsonStrList r.label_ids = some l := by
  rw [annRowE_label_ids h hlv]
  exact json_strList_roundtrip l

theorem claim_C5_witness :
    annRowE "train" C5el = .ok C5row ∧
    subscr C5el "labelId" = .ok (.arr (["95", "66", "12"].map .str)) ∧
    parseJsonStrList C5row.label_ids = some ["95", "66", "12"] :=
  ⟨rfl, rfl, claim_C5_label_ids_roundtrip "train" C5el C5row ["95", "66", "12"] rfl rfl⟩

end ImatLoader
